import Mathlib

/-!
# DRIVE-NOW: rental booking and availability logic

A shallow embedding of the handlers of `src/server/server.js` (the Express
routes `POST /api/rentals`, `PATCH /api/rentals/:id/cancel`,
`GET /api/rentals/my-rentals`, `POST /api/auth/register`,
`POST /api/auth/login` and `authMiddleware`) over an explicit store state,
together with the day-count arithmetic they use and `calculateDays` of
`src/client/src/App.jsx`.

Modelling conventions.

* Mongo collections are lists of documents in insertion order.  `findById` and
  `findOne` return the first matching document, `save` on a loaded document and
  `findByIdAndUpdate` rewrite the first document with that `_id`.
* `ObjectId`s are natural numbers; a new document takes the store's `nextId`.
  An id that arrives in a request is an `IdParam`: an `ObjectId`, or a string
  on which the cast to `ObjectId` throws (`postRentalsRoute`,
  `patchRentalCancelRoute`).
* JavaScript `Number`s that hold money and day counts are whole numbers; a
  product is rounded to the nearest IEEE 754 double by `jsMul`, which is the
  exact product below `2 ^ 53`.  Fractional prices and `Infinity` are outside
  the model.
* A date is an ISO calendar date `YYYY-MM-DD`; `new Date(s)` reads it as UTC
  midnight, so its time value is the day number times `msPerDay`.
* `Date.now` (the `createdAt` default) is an input of the handler.
* In `postRentals`, `patchRentalCancel` and `getMyRentals` every database call
  succeeds, so the `catch` branch (status 500) is never taken; the variants
  `postRentalsWithFaults` and `patchRentalCancelWithFaults` take the outcome
  of each call as an input.
* Requests are handled one after the other, except in `interleave`, where two
  runs of the booking handler take turns at their awaited database calls.
* `bcryptjs` and `jsonwebtoken` are parameters of the auth handlers.
-/

namespace DriveNow

/-! ## Calendar dates and the time value of `new Date(...)` -/

/-- Leap years of the proleptic Gregorian calendar. -/
def isLeapYear (y : Nat) : Bool :=
  (y % 4 == 0 && y % 100 != 0) || y % 400 == 0

/-- Number of days of month `m` (1 to 12) in year `y`; 0 for any other `m`. -/
def daysInMonth (y m : Nat) : Nat :=
  match m with
  | 1 => 31
  | 2 => if isLeapYear y then 29 else 28
  | 3 => 31
  | 4 => 30
  | 5 => 31
  | 6 => 30
  | 7 => 31
  | 8 => 31
  | 9 => 30
  | 10 => 31
  | 11 => 30
  | 12 => 31
  | _ => 0

/-- Well-formed calendar triples: a four-digit year, a month 1 to 12 and a day
that exists in that month. -/
def validYMD (y m d : Nat) : Bool :=
  decide (y ≤ 9999) && decide (1 ≤ m) && decide (m ≤ 12) && decide (1 ≤ d) &&
    decide (d ≤ daysInMonth y m)

/-- An ISO calendar date `YYYY-MM-DD`, as sent in `startDate` and `endDate`. -/
structure ISODate where
  year : Nat
  month : Nat
  day : Nat
  valid : validYMD year month day = true
  deriving DecidableEq

/-- Calendar order on dates: by year, then month, then day. -/
def ISODate.le (a b : ISODate) : Prop :=
  a.year < b.year ∨
    (a.year = b.year ∧ (a.month < b.month ∨ (a.month = b.month ∧ a.day ≤ b.day)))

instance : LE ISODate := ⟨ISODate.le⟩

instance (a b : ISODate) : Decidable (a ≤ b) :=
  inferInstanceAs (Decidable (a.year < b.year ∨
    (a.year = b.year ∧ (a.month < b.month ∨ (a.month = b.month ∧ a.day ≤ b.day)))))

/-- Day number of 1 January of year `y`, counted from 1970-01-01
(`DayFromYear` of ECMAScript). -/
def dayFromYear (y : Nat) : Int :=
  365 * ((y : Int) - 1970) + ((y : Int) - 1969) / 4 - ((y : Int) - 1901) / 100
    + ((y : Int) - 1601) / 400

/-- Number of days of year `y`. -/
def daysInYear (y : Nat) : Nat := if isLeapYear y then 366 else 365

/-- Days of year `y` that lie before the first day of month `m`. -/
def daysBeforeMonth (y m : Nat) : Nat :=
  match m with
  | 0 => 0
  | 1 => 0
  | k + 1 => daysBeforeMonth y k + daysInMonth y k

/-- Day number of a calendar date, counted from 1970-01-01. -/
def epochDay (d : ISODate) : Int :=
  dayFromYear d.year + (daysBeforeMonth d.year d.month : Int) + ((d.day : Int) - 1)

/-- Milliseconds per day, the divisor `1000 * 60 * 60 * 24` of the handler. -/
def msPerDay : Int := 1000 * 60 * 60 * 24

/-- Time value in milliseconds of `new Date(s)` for a date-only ISO string:
UTC midnight of that day. -/
def newDate (d : ISODate) : Int := epochDay d * msPerDay

/-- The function `Math.ceil (a / b)` for an integer `a` and a positive integer `b`. -/
def ceilDiv (a b : Int) : Int := -((-a) / b)

/-- The day count of the booking handler:
`Math.ceil((new Date(endDate) - new Date(startDate)) / (1000 * 60 * 60 * 24))`. -/
def rentalDays (startDate endDate : ISODate) : Int :=
  ceilDiv (newDate endDate - newDate startDate) msPerDay

/-! ## Numbers -/

/-- Search, from `e` upwards and for at most `fuel` steps, the least exponent
at which `n / 2 ^ e` has at most 53 bits. -/
def significandShift : Nat → Nat → Nat → Nat
  | 0, e, _ => e
  | fuel + 1, e, n => if n / 2 ^ e < 2 ^ 53 then e else significandShift fuel (e + 1) n

/-- The IEEE 754 double nearest to a natural number: 53 significant bits,
ties to even.  Below `2 ^ 53` every natural number is a double.  From
`2 ^ 1024` on the value of the code is `Infinity`, which is outside this
model. -/
def roundNat (n : Nat) : Nat :=
  if n < 2 ^ 53 then n
  else
    let e := significandShift 1024 0 n
    let q := n / 2 ^ e
    let r := n % 2 ^ e
    if 2 * r < 2 ^ e then q * 2 ^ e
    else if 2 ^ e < 2 * r then (q + 1) * 2 ^ e
    else if q % 2 = 0 then q * 2 ^ e
    else (q + 1) * 2 ^ e

/-- The `Number` (IEEE 754 double) nearest to an integer. -/
def toNumber (x : Int) : Int :=
  if x < 0 then -((roundNat x.natAbs : Nat) : Int) else ((roundNat x.natAbs : Nat) : Int)

/-- The JavaScript product `a * b` of two whole `Number`s: the exact product
rounded to the nearest double. -/
def jsMul (a b : Int) : Int := toNumber (a * b)

/-! ## Documents and the store -/

/-- Vehicle documents (`vehicleSchema`). -/
structure Vehicle where
  _id : Nat
  name : String
  type : String
  brand : String
  model : String
  year : Option Nat
  pricePerDay : Int
  image : Option String
  available : Bool
  features : List String
  seating : Option Nat
  transmission : Option String
  fuelType : Option String
  deriving DecidableEq, Repr

/-- Rental status (`enum` of `rentalSchema.status`). -/
inductive Status where
  | pending
  | confirmed
  | completed
  | cancelled
  deriving DecidableEq, Repr

/-- Rental documents (`rentalSchema`). -/
structure Rental where
  _id : Nat
  userId : Nat
  vehicleId : Nat
  startDate : ISODate
  endDate : ISODate
  totalPrice : Int
  status : Status
  createdAt : Int
  deriving DecidableEq

/-- The database: the vehicle and rental collections and the next fresh id. -/
structure Store where
  vehicles : List Vehicle
  rentals : List Rental
  nextId : Nat
  deriving DecidableEq

/-- Rewrite the first element that satisfies `p` (Mongo `updateOne`). -/
def updateOne {α : Type} (p : α → Bool) (f : α → α) : List α → List α
  | [] => []
  | x :: xs => if p x then f x :: xs else x :: updateOne p f xs

/-- The query `Vehicle.findById(id)`. -/
def Store.findVehicle (s : Store) (id : Nat) : Option Vehicle :=
  s.vehicles.find? (fun v => v._id == id)

/-- The query `Rental.findById(id)`. -/
def Store.findRental (s : Store) (id : Nat) : Option Rental :=
  s.rentals.find? (fun r => r._id == id)

/-- The query `Rental.findOne({ _id: id, userId })`. -/
def Store.findOwnedRental (s : Store) (id userId : Nat) : Option Rental :=
  s.rentals.find? (fun r => r._id == id && r.userId == userId)

/-- The update `{ available: value }` of the vehicle with the given id. -/
def Store.setAvailable (s : Store) (id : Nat) (value : Bool) : Store :=
  { s with vehicles :=
      updateOne (fun v => v._id == id) (fun v => { v with available := value }) s.vehicles }

/-- Insert a new rental document (`rental.save()` on a new document). -/
def Store.insertRental (s : Store) (r : Rental) : Store :=
  { s with rentals := s.rentals ++ [r], nextId := s.nextId + 1 }

/-- Write a status to the rental with the given id (`rental.save()` after
`rental.status = ...`). -/
def Store.setStatus (s : Store) (id : Nat) (st : Status) : Store :=
  { s with rentals :=
      updateOne (fun r => r._id == id) (fun r => { r with status := st }) s.rentals }

/-! ## HTTP responses and handlers -/

/-- Body of a JSON response: an `{ error }` object or a rental document. -/
inductive Body where
  | error (msg : String)
  | rental (r : Rental)
  deriving DecidableEq

/-- An HTTP response: status code and JSON body. -/
structure Response where
  status : Nat
  body : Body
  deriving DecidableEq

/-- Body `{ vehicleId, startDate, endDate }` of a booking request. -/
structure BookingRequest where
  vehicleId : Nat
  startDate : ISODate
  endDate : ISODate
  deriving DecidableEq

/-- The handler of `POST /api/rentals` after `authMiddleware` has set
`req.userId`, on a body whose `vehicleId` is an `ObjectId` (see
`postRentalsRoute` for any body); `now` is the value of `Date.now`. -/
def postRentals (s : Store) (userId : Nat) (req : BookingRequest) (now : Int) :
    Response × Store :=
  match s.findVehicle req.vehicleId with
  | none => (⟨400, Body.error "Vehicle not available"⟩, s)
  | some vehicle =>
    if !vehicle.available then (⟨400, Body.error "Vehicle not available"⟩, s)
    else
      let days := rentalDays req.startDate req.endDate
      let totalPrice := jsMul days vehicle.pricePerDay
      let rental : Rental :=
        { _id := s.nextId
          userId := userId
          vehicleId := req.vehicleId
          startDate := req.startDate
          endDate := req.endDate
          totalPrice := totalPrice
          status := Status.pending
          createdAt := now }
      (⟨201, Body.rental rental⟩, (s.insertRental rental).setAvailable vehicle._id false)

/-- The handler of `PATCH /api/rentals/:id/cancel` after `authMiddleware` has
set `req.userId`, on a path parameter that is an `ObjectId` (see
`patchRentalCancelRoute` for any parameter). -/
def patchRentalCancel (s : Store) (userId : Nat) (id : Nat) : Response × Store :=
  match s.findOwnedRental id userId with
  | none => (⟨404, Body.error "Rental not found"⟩, s)
  | some rental =>
    (⟨200, Body.rental { rental with status := Status.cancelled }⟩,
      (s.setStatus rental._id Status.cancelled).setAvailable rental.vehicleId true)

/-! ## Ids as they arrive in a request -/

/-- An id as it arrives in a request, as a path parameter or as a field of the
body.  Mongoose casts it to an `ObjectId` before it queries: the cast gives an
`ObjectId` (`objectId`) or throws a `CastError` (`malformed`, with the string
that was sent). -/
inductive IdParam where
  | objectId (id : Nat)
  | malformed (raw : String)
  deriving DecidableEq

/-- Body `{ vehicleId, startDate, endDate }` of a booking request as it
arrives. -/
structure RawBookingRequest where
  vehicleId : IdParam
  startDate : ISODate
  endDate : ISODate
  deriving DecidableEq

/-- The route `POST /api/rentals` on a body with any `vehicleId`:
`Vehicle.findById` throws a `CastError` for a `vehicleId` that is no
`ObjectId`, and the `catch` branch answers 500 with the message of the error
(abbreviated here); otherwise the handler runs as `postRentals`. -/
def postRentalsRoute (s : Store) (userId : Nat) (body : RawBookingRequest) (now : Int) :
    Response × Store :=
  match body.vehicleId with
  | IdParam.malformed _ => (⟨500, Body.error "Cast to ObjectId failed"⟩, s)
  | IdParam.objectId vehicleId =>
    postRentals s userId ⟨vehicleId, body.startDate, body.endDate⟩ now

/-- The route `PATCH /api/rentals/:id/cancel` on any path parameter:
`Rental.findOne` throws a `CastError` for an `:id` that is no `ObjectId`, and
the `catch` branch answers 500 with the message of the error (abbreviated
here); otherwise the handler runs as `patchRentalCancel`. -/
def patchRentalCancelRoute (s : Store) (userId : Nat) (id : IdParam) : Response × Store :=
  match id with
  | IdParam.malformed _ => (⟨500, Body.error "Cast to ObjectId failed"⟩, s)
  | IdParam.objectId rentalId => patchRentalCancel s userId rentalId

/-! ## Sequences of operations -/

/-- A request to one of the two protected handlers, by the account `userId`. -/
inductive Op where
  | book (userId : Nat) (req : BookingRequest) (now : Int)
  | cancel (userId : Nat) (id : Nat)
  deriving DecidableEq

/-- The store after the server has handled one request. -/
def step (s : Store) : Op → Store
  | Op.book userId req now => (postRentals s userId req now).2
  | Op.cancel userId id => (patchRentalCancel s userId id).2

/-- The store after the server has handled a sequence of requests in order. -/
def run (s : Store) (ops : List Op) : Store := ops.foldl step s

/-- A rental that blocks its vehicle: status `pending` or `confirmed`. -/
def Rental.active (r : Rental) : Bool :=
  r.status == Status.pending || r.status == Status.confirmed

/-- The availability invariant of the data model: a vehicle is flagged
unavailable exactly when some rental that references it is active. -/
def availabilityInvariant (s : Store) : Prop :=
  ∀ v ∈ s.vehicles,
    v.available = false ↔ ∃ r ∈ s.rentals, r.vehicleId = v._id ∧ r.active = true

instance (s : Store) : Decidable (availabilityInvariant s) :=
  inferInstanceAs (Decidable (∀ v ∈ s.vehicles,
    v.available = false ↔ ∃ r ∈ s.rentals, r.vehicleId = v._id ∧ r.active = true))

/-- The status check that the client applies before it offers a cancellation
(`rental.status === 'pending'` in `App.jsx`): bookings pass, and a cancel
passes when the rental it would cancel is `pending`. -/
def Op.pendingOnly (s : Store) : Op → Bool
  | Op.book _ _ _ => true
  | Op.cancel userId id =>
    match s.findOwnedRental id userId with
    | none => true
    | some r => r.status == Status.pending

/-- Every request of the sequence passes `Op.pendingOnly` in the store that it
meets. -/
def allPendingOnly (s : Store) : List Op → Bool
  | [] => true
  | op :: ops => op.pendingOnly s && allPendingOnly (step s op) ops

/-- Initial stores: an empty ledger, every vehicle available, vehicle ids
distinct. -/
def Store.initial (s : Store) : Prop :=
  s.rentals = [] ∧ (∀ v ∈ s.vehicles, v.available = true) ∧
    (s.vehicles.map (fun v => v._id)).Nodup

/-- Consistent stores: distinct ids, rental ids below `nextId`, at most one
active rental per vehicle, and the availability invariant. -/
structure Store.Consistent (s : Store) : Prop where
  vehicleIds : (s.vehicles.map (fun v => v._id)).Nodup
  rentalIds : (s.rentals.map (fun r => r._id)).Nodup
  fresh : ∀ r ∈ s.rentals, r._id < s.nextId
  oneActive : ∀ r1 ∈ s.rentals, ∀ r2 ∈ s.rentals, r1.active = true → r2.active = true →
    r1.vehicleId = r2.vehicleId → r1._id = r2._id
  avail : availabilityInvariant s

/-! ## Listing the rentals of an account -/

/-- A rental document after `.populate('vehicleId')`: the vehicle reference is
replaced by the referenced vehicle document, or by `null` when no vehicle has
that id. -/
structure PopulatedRental where
  _id : Nat
  userId : Nat
  vehicleId : Option Vehicle
  startDate : ISODate
  endDate : ISODate
  totalPrice : Int
  status : Status
  createdAt : Int
  deriving DecidableEq

/-- The step `.populate('vehicleId')` on one rental document. -/
def Store.populate (s : Store) (r : Rental) : PopulatedRental :=
  { _id := r._id
    userId := r.userId
    vehicleId := s.findVehicle r.vehicleId
    startDate := r.startDate
    endDate := r.endDate
    totalPrice := r.totalPrice
    status := r.status
    createdAt := r.createdAt }

/-- The handler of `GET /api/rentals/my-rentals` after `authMiddleware` has set
`req.userId`: `Rental.find({ userId }).populate('vehicleId').sort({ createdAt: -1 })`,
answered with status 200. -/
def getMyRentals (s : Store) (userId : Nat) : Nat × List PopulatedRental :=
  (200,
    ((s.rentals.filter (fun r => r.userId == userId)).insertionSort
      (fun a b => b.createdAt ≤ a.createdAt)).map s.populate)

/-! ## Cancellations that leave a vehicle alone -/

/-- No request of the sequence is a cancellation that targets a rental of
vehicle `v`: every cancel request, in the store that it meets, finds no rental
of the caller or finds a rental of another vehicle. -/
def noCancelOf (v : Nat) (s : Store) : List Op → Bool
  | [] => true
  | Op.book userId req now :: ops => noCancelOf v (step s (Op.book userId req now)) ops
  | Op.cancel userId id :: ops =>
    (match s.findOwnedRental id userId with
      | none => true
      | some r => r.vehicleId != v) &&
    noCancelOf v (step s (Op.cancel userId id)) ops

/-- Booking requests. -/
def Op.isBook : Op → Bool
  | Op.book _ _ _ => true
  | Op.cancel _ _ => false

/-- The rentals of a ledger that reference vehicle `v`. -/
def rentalsOf (v : Nat) (l : List Rental) : List Rental :=
  l.filter (fun r => r.vehicleId == v)

/-- Vehicle `v` cannot be booked: no vehicle has that id, or the one found is
flagged unavailable. -/
def Store.blocked (s : Store) (v : Nat) : Prop :=
  ∀ w, s.findVehicle v = some w → w.available = false

/-! ## The price preview of the client -/

/-- The state `bookingForm` of `App.jsx`: each date input is empty (`''`) or
holds an ISO calendar date. -/
structure BookingForm where
  startDate : Option ISODate
  endDate : Option ISODate
  deriving DecidableEq

/-- The function `calculateDays` of `App.jsx`. -/
def calculateDays (form : BookingForm) : Int :=
  match form.startDate, form.endDate with
  | some start, some stop =>
    let days := ceilDiv (newDate stop - newDate start) msPerDay
    if days > 0 then days else 0
  | _, _ => 0

/-- The condition `calculateDays() > 0` under which the booking modal of
`App.jsx` renders the price preview. -/
def previewShown (form : BookingForm) : Bool := decide (calculateDays form > 0)

/-- The total of the preview: `calculateDays() * selectedVehicle.pricePerDay`. -/
def previewTotal (form : BookingForm) (selectedVehicle : Vehicle) : Int :=
  jsMul (calculateDays form) selectedVehicle.pricePerDay

/-- The body that `handleBooking` of `App.jsx` posts for a filled form. -/
def handleBookingBody (selectedVehicle : Vehicle) (start stop : ISODate) : BookingRequest :=
  { vehicleId := selectedVehicle._id, startDate := start, endDate := stop }

/-! ## Storage failures -/

/-- Outcomes of the three database calls of the booking handler, in program
order: `none` when the call succeeds, `some msg` when it throws an error with
message `msg`.  A call that throws has written nothing. -/
structure BookingFaults where
  findVehicle : Option String
  saveRental : Option String
  saveVehicle : Option String
  deriving DecidableEq

/-- The handler of `POST /api/rentals` with the outcome of each database call
given by `io`; a call that throws is caught by the `catch` branch, which
answers 500 with the message of the error. -/
def postRentalsWithFaults (io : BookingFaults) (s : Store) (userId : Nat)
    (req : BookingRequest) (now : Int) : Response × Store :=
  match io.findVehicle with
  | some msg => (⟨500, Body.error msg⟩, s)
  | none =>
    match s.findVehicle req.vehicleId with
    | none => (⟨400, Body.error "Vehicle not available"⟩, s)
    | some vehicle =>
      if !vehicle.available then (⟨400, Body.error "Vehicle not available"⟩, s)
      else
        let days := rentalDays req.startDate req.endDate
        let totalPrice := jsMul days vehicle.pricePerDay
        let rental : Rental :=
          { _id := s.nextId
            userId := userId
            vehicleId := req.vehicleId
            startDate := req.startDate
            endDate := req.endDate
            totalPrice := totalPrice
            status := Status.pending
            createdAt := now }
        match io.saveRental with
        | some msg => (⟨500, Body.error msg⟩, s)
        | none =>
          match io.saveVehicle with
          | some msg => (⟨500, Body.error msg⟩, s.insertRental rental)
          | none =>
            (⟨201, Body.rental rental⟩,
              (s.insertRental rental).setAvailable vehicle._id false)

/-- Outcomes of the three database calls of the cancel handler, in program
order. -/
structure CancelFaults where
  findRental : Option String
  saveRental : Option String
  updateVehicle : Option String
  deriving DecidableEq

/-- The handler of `PATCH /api/rentals/:id/cancel` with the outcome of each
database call given by `io`. -/
def patchRentalCancelWithFaults (io : CancelFaults) (s : Store) (userId : Nat) (id : Nat) :
    Response × Store :=
  match io.findRental with
  | some msg => (⟨500, Body.error msg⟩, s)
  | none =>
    match s.findOwnedRental id userId with
    | none => (⟨404, Body.error "Rental not found"⟩, s)
    | some rental =>
      match io.saveRental with
      | some msg => (⟨500, Body.error msg⟩, s)
      | none =>
        match io.updateVehicle with
        | some msg => (⟨500, Body.error msg⟩, s.setStatus rental._id Status.cancelled)
        | none =>
          (⟨200, Body.rental { rental with status := Status.cancelled }⟩,
            (s.setStatus rental._id Status.cancelled).setAvailable rental.vehicleId true)

/-- A store shows a half-done booking or cancellation: a `pending` rental
whose vehicle is flagged available, or a `cancelled` rental whose vehicle is
flagged unavailable although no active rental references it. -/
def Store.halfDone (s : Store) : Bool :=
  s.rentals.any (fun r =>
    match s.findVehicle r.vehicleId with
    | none => false
    | some v =>
      (r.status == Status.pending && v.available) ||
      (r.status == Status.cancelled && !v.available &&
        !s.rentals.any (fun x => x.vehicleId == r.vehicleId && x.active)))

/-! ## Two bookings in flight -/

/-- An authenticated booking request with the clock value it meets. -/
structure Call where
  userId : Nat
  req : BookingRequest
  now : Int
  deriving DecidableEq

/-- Where one run of the booking handler stands between its awaited database
calls: before `Vehicle.findById`, before `rental.save()` (guard passed),
before `vehicle.save()`, or answered. -/
inductive BookingRun where
  | start
  | found (vehicle : Vehicle)
  | saved (vehicle : Vehicle) (rental : Rental)
  | done (response : Response)
  deriving DecidableEq

/-- The next database call of a run of the booking handler, together with the
code that follows it up to the next `await`.  Run to the end on its own this
is `postRentals`. -/
def bookingStep (c : Call) : BookingRun → Store → BookingRun × Store
  | BookingRun.start, s =>
    match s.findVehicle c.req.vehicleId with
    | none => (BookingRun.done ⟨400, Body.error "Vehicle not available"⟩, s)
    | some vehicle =>
      if !vehicle.available then
        (BookingRun.done ⟨400, Body.error "Vehicle not available"⟩, s)
      else (BookingRun.found vehicle, s)
  | BookingRun.found vehicle, s =>
    let days := rentalDays c.req.startDate c.req.endDate
    let totalPrice := jsMul days vehicle.pricePerDay
    let rental : Rental :=
      { _id := s.nextId
        userId := c.userId
        vehicleId := c.req.vehicleId
        startDate := c.req.startDate
        endDate := c.req.endDate
        totalPrice := totalPrice
        status := Status.pending
        createdAt := c.now }
    (BookingRun.saved vehicle rental, s.insertRental rental)
  | BookingRun.saved vehicle rental, s =>
    (BookingRun.done ⟨201, Body.rental rental⟩, s.setAvailable vehicle._id false)
  | BookingRun.done response, s => (BookingRun.done response, s)

/-- Two runs of the booking handler that share the store. -/
structure Pair where
  first : BookingRun
  second : BookingRun
  store : Store
  deriving DecidableEq

/-- One scheduling decision: `false` lets the first run perform its next
database call, `true` the second. -/
def Pair.step (c1 c2 : Call) (p : Pair) (who : Bool) : Pair :=
  if who then
    { p with second := (bookingStep c2 p.second p.store).1,
             store := (bookingStep c2 p.second p.store).2 }
  else
    { p with first := (bookingStep c1 p.first p.store).1,
             store := (bookingStep c1 p.first p.store).2 }

/-- Two concurrent calls executed under a schedule. -/
def interleave (c1 c2 : Call) (s : Store) (schedule : List Bool) : Pair :=
  schedule.foldl (Pair.step c1 c2) ⟨BookingRun.start, BookingRun.start, s⟩

/-- All schedules of a given length. -/
def schedules : Nat → List (List Bool)
  | 0 => [[]]
  | k + 1 => (schedules k).map (fun l => false :: l) ++ (schedules k).map (fun l => true :: l)

/-- All interleavings of `n` steps of the first run with `m` steps of the
second. -/
def merges (n m : Nat) : List (List Bool) :=
  (schedules (n + m)).filter (fun l => l.count false == n && l.count true == m)

/-- The schedule in which the first call ends before the second starts. -/
def firstThenSecond : List Bool := [false, false, false, true, true, true]

/-- The schedule in which the second call ends before the first starts. -/
def secondThenFirst : List Bool := [true, true, true, false, false, false]

/-- The phase of a run, forgetting its data. -/
inductive Phase where
  | start
  | found
  | saved
  | accepted
  | rejected
  deriving DecidableEq

/-- The phase of a run; an answered run is `accepted` when its status is 201. -/
def BookingRun.phase : BookingRun → Phase
  | BookingRun.start => Phase.start
  | BookingRun.found _ => Phase.found
  | BookingRun.saved _ _ => Phase.saved
  | BookingRun.done response => if response.status = 201 then Phase.accepted else Phase.rejected

/-- The control state of two runs on one vehicle: the two phases and the
vehicle's available flag. -/
structure Control where
  first : Phase
  second : Phase
  available : Bool
  deriving DecidableEq

/-- The step of one run on the control state. -/
def Phase.step (ph : Phase) (available : Bool) : Phase × Bool :=
  match ph with
  | Phase.start => if available then (Phase.found, available) else (Phase.rejected, available)
  | Phase.found => (Phase.saved, available)
  | Phase.saved => (Phase.accepted, false)
  | Phase.accepted => (Phase.accepted, available)
  | Phase.rejected => (Phase.rejected, available)

/-- One scheduling decision on the control state. -/
def Control.step (k : Control) (who : Bool) : Control :=
  if who then
    { k with second := (k.second.step k.available).1,
             available := (k.second.step k.available).2 }
  else
    { k with first := (k.first.step k.available).1,
             available := (k.first.step k.available).2 }

/-- The control state of a pair of runs on vehicle `v`. -/
def Pair.control (v : Nat) (p : Pair) : Control :=
  { first := p.first.phase
    second := p.second.phase
    available := (p.store.findVehicle v).any (fun w => w.available) }

/-! ## Accounts and sessions -/

/-- User documents (`userSchema`). -/
structure User where
  _id : Nat
  name : String
  email : String
  password : String
  phone : Option String
  createdAt : Int
  deriving DecidableEq

/-- The user collection and its next fresh id. -/
structure Accounts where
  users : List User
  nextId : Nat
  deriving DecidableEq

/-- The library `bcryptjs`: `hash` (with the salt it draws) and `compare`.  A
bcrypt hash is a string of 60 characters, so it is never empty. -/
structure Bcrypt where
  hash : String → Nat → String
  compare : String → String → Bool
  hash_nonempty : ∀ (pw : String) (salt : Nat), hash pw salt ≠ ""

/-- The library `jsonwebtoken` with `JWT_SECRET` fixed: `sign` of the payload
`{ userId }` at the time `iat`, and `verify`, which gives the `userId` of the
payload or fails.  A token is never the empty string. -/
structure Jwt where
  sign : Nat → Int → String
  verify : String → Option Nat
  sign_nonempty : ∀ (userId : Nat) (iat : Int), sign userId iat ≠ ""

/-- The object `{ id, name, email }` of the session responses. -/
structure UserSummary where
  id : Nat
  name : String
  email : String
  deriving DecidableEq

/-- Body of a response of the auth routes: `{ error }` or `{ token, user }`. -/
inductive AuthBody where
  | error (msg : String)
  | session (token : String) (user : UserSummary)
  deriving DecidableEq

/-- A response of the auth routes. -/
structure AuthResponse where
  status : Nat
  body : AuthBody
  deriving DecidableEq

/-- The query `User.findOne({ email })`. -/
def Accounts.findByEmail (db : Accounts) (email : String) : Option User :=
  db.users.find? (fun u => u.email == email)

/-- Validation of `user.save()`: the paths `name`, `email` and `password` are
`required`, which for a string path rejects the empty string. -/
def User.valid (u : User) : Bool :=
  u.name != "" && u.email != "" && u.password != ""

/-- The handler of `POST /api/auth/register`; `salt` is the salt that
`bcrypt.hash` draws and `now` the value of `Date.now`.  When validation fails
`user.save()` throws and the `catch` branch answers 500 with the message of
the validation error (abbreviated here). -/
def register (bc : Bcrypt) (jwt : Jwt) (db : Accounts) (name email password : String)
    (phone : Option String) (salt : Nat) (now : Int) : AuthResponse × Accounts :=
  match db.findByEmail email with
  | some _ => (⟨400, AuthBody.error "Email already registered"⟩, db)
  | none =>
    let hashedPassword := bc.hash password salt
    let user : User :=
      { _id := db.nextId
        name := name
        email := email
        password := hashedPassword
        phone := phone
        createdAt := now }
    if user.valid then
      (⟨201, AuthBody.session (jwt.sign user._id now) ⟨user._id, user.name, user.email⟩⟩,
        { users := db.users ++ [user], nextId := db.nextId + 1 })
    else (⟨500, AuthBody.error "User validation failed"⟩, db)

/-- The handler of `POST /api/auth/login`. -/
def login (bc : Bcrypt) (jwt : Jwt) (db : Accounts) (email password : String) (now : Int) :
    AuthResponse :=
  match db.findByEmail email with
  | none => ⟨401, AuthBody.error "Invalid credentials"⟩
  | some user =>
    if !bc.compare password user.password then ⟨401, AuthBody.error "Invalid credentials"⟩
    else ⟨200, AuthBody.session (jwt.sign user._id now) ⟨user._id, user.name, user.email⟩⟩

/-- The string method `replace` with a string pattern: the first occurrence of
`pat` is removed. -/
def removeFirst (pat : List Char) : List Char → List Char
  | [] => []
  | c :: cs => if pat.isPrefixOf (c :: cs) then (c :: cs).drop pat.length
    else c :: removeFirst pat cs

/-- What `authMiddleware` does with a request: it calls `next()` with
`req.userId` set, or it answers itself. -/
inductive Gate where
  | next (userId : Nat)
  | reject (response : AuthResponse)
  deriving DecidableEq

/-- The function `authMiddleware` on the value of the `Authorization` header. -/
def authMiddleware (jwt : Jwt) (authorization : Option String) : Gate :=
  match authorization.map (fun h => String.mk (removeFirst "Bearer ".data h.data)) with
  | none => Gate.reject ⟨401, AuthBody.error "Authentication required"⟩
  | some token =>
    if token = "" then Gate.reject ⟨401, AuthBody.error "Authentication required"⟩
    else
      match jwt.verify token with
      | some userId => Gate.next userId
      | none => Gate.reject ⟨401, AuthBody.error "Invalid token"⟩

/-- The header that the client sends: the token after `Bearer `. -/
def bearer (token : String) : Option String := some ("Bearer " ++ token)

/-- A stand-in for `bcryptjs` in closed examples: the hash is the password
after a `$`. -/
def toyBcrypt : Bcrypt :=
  { hash := fun pw _ => "$" ++ pw
    compare := fun pw h => h == "$" ++ pw
    hash_nonempty := by
      intro pw _ h
      have := congrArg String.length h
      simp at this
      exact absurd this.1 (by decide) }

/-- A stand-in for `jsonwebtoken` in closed examples: the token of account
`n` is `n + 1` letters `x`. -/
def toyJwt : Jwt :=
  { sign := fun userId _ => String.mk (List.replicate (userId + 1) 'x')
    verify := fun token =>
      if token.data.all (fun c => c == 'x') && token.data != [] then
        some (token.data.length - 1)
      else none
    sign_nonempty := by
      intro userId _ h
      have := congrArg String.length h
      simp [String.length] at this }

/-- An empty user collection. -/
def noAccounts : Accounts := { users := [], nextId := 1 }

/-! ## Sample data -/

/-- The date 2023-06-01. -/
def june1 : ISODate := ⟨2023, 6, 1, by decide⟩

/-- The date 2023-06-04. -/
def june4 : ISODate := ⟨2023, 6, 4, by decide⟩

/-- The first vehicle of `/api/seed-vehicles`, priced 89 per day. -/
def tesla : Vehicle :=
  { _id := 1
    name := "Tesla Model 3"
    type := "sedan"
    brand := "Tesla"
    model := "Model 3"
    year := some 2023
    pricePerDay := 89
    image := some "https://images.unsplash.com/photo-1560958089-b8a1929cea89?w=500"
    available := true
    features := ["Autopilot", "Premium Sound", "Glass Roof"]
    seating := some 5
    transmission := some "automatic"
    fuelType := some "electric" }

/-- The second vehicle of `/api/seed-vehicles`, priced 120 per day. -/
def bmw : Vehicle :=
  { _id := 2
    name := "BMW X5"
    type := "suv"
    brand := "BMW"
    model := "X5"
    year := some 2023
    pricePerDay := 120
    image := some "https://images.unsplash.com/photo-1519641471654-76ce0107ad1b?w=500"
    available := true
    features := ["Leather Seats", "4WD", "Panoramic Roof"]
    seating := some 7
    transmission := some "automatic"
    fuelType := some "gasoline" }

/-- A vehicle priced `2 ^ 53 - 1` per day, the largest whole number below
which every whole number is a double. -/
def dearVehicle : Vehicle :=
  { tesla with _id := 3, name := "Tesla Roadster", pricePerDay := 9007199254740991 }

/-- A store that offers `dearVehicle`. -/
def dearStore : Store := { vehicles := [dearVehicle], rentals := [], nextId := 100 }

/-- A vehicle priced 0 per day. -/
def freeVehicle : Vehicle := { bmw with _id := 4, name := "Courtesy car", pricePerDay := 0 }

/-- A store that offers `freeVehicle`. -/
def freeStore : Store := { vehicles := [freeVehicle], rentals := [], nextId := 100 }

/-- A freshly seeded store: two available vehicles and an empty ledger. -/
def seedStore : Store := { vehicles := [tesla, bmw], rentals := [], nextId := 100 }

/-- The first seeded vehicle once it is booked. -/
def teslaBooked : Vehicle := { tesla with available := false }

/-- The rental that account 7 gets for the first vehicle, 2023-06-01 to 2023-06-04. -/
def firstRental : Rental :=
  { _id := 100, userId := 7, vehicleId := 1, startDate := june1, endDate := june4,
    totalPrice := 267, status := Status.pending, createdAt := 0 }

/-- The seeded store after account 7 has booked the first vehicle. -/
def bookedStore : Store := (postRentals seedStore 7 ⟨1, june1, june4⟩ 0).2

/-- Account 7 books the first vehicle and cancels, then account 8 books the
same vehicle. -/
def rebook : List Op :=
  [Op.book 7 ⟨1, june1, june4⟩ 0, Op.cancel 7 100, Op.book 8 ⟨1, june1, june4⟩ 5]

/-- The seeded store after `rebook`: rental 100 is cancelled, rental 101 of
account 8 is pending and the first vehicle is flagged unavailable. -/
def rebookedStore : Store := run seedStore rebook

/-- The store `bookedStore` once rental 100 has been moved to `confirmed`. -/
def confirmedStore : Store := bookedStore.setStatus 100 Status.confirmed

/-- Requests that follow the first booking and leave vehicle 1 alone: account 8
books vehicle 2 and cancels that rental, account 9 asks for vehicle 1. -/
def otherTraffic : List Op :=
  [Op.book 8 ⟨2, june1, june4⟩ 1, Op.cancel 8 101, Op.book 9 ⟨1, june1, june4⟩ 2]

/-- A run on vehicle `v` is well formed: the vehicle document it holds has id
`v`, and an answer is a 201 or the 400 of the availability guard. -/
def BookingRun.Good (v : Nat) : BookingRun → Prop
  | BookingRun.start => True
  | BookingRun.found w => w._id = v
  | BookingRun.saved w _ => w._id = v
  | BookingRun.done response =>
    response.status = 201 ∨ response = ⟨400, Body.error "Vehicle not available"⟩

/-- The store holds `vehicle` under id `v`, up to its available flag. -/
def Store.holds (s : Store) (v : Nat) (vehicle : Vehicle) : Prop :=
  ∃ flag : Bool, s.findVehicle v = some { vehicle with available := flag }

/-- Sample calls: accounts 7 and 8 ask for vehicle 1 at the same time. -/
def callA : Call := ⟨7, ⟨1, june1, june4⟩, 0⟩

/-- The call of account 8 for vehicle 1. -/
def callB : Call := ⟨8, ⟨1, june1, june4⟩, 5⟩

/-- A schedule in which both runs read the vehicle before either run writes. -/
def bothReadFirst : List Bool := [false, true, false, false, true, true]

/-! ## Number arithmetic -/

theorem significandShift_pow_le (fuel e n : Nat) (h : 2 ^ e ≤ n) :
    2 ^ significandShift fuel e n ≤ n := by
  induction fuel generalizing e with
  | zero => exact h
  | succ f ih =>
    unfold significandShift
    split
    · exact h
    · rename_i hlt
      apply ih
      have h53 : 2 ^ 53 ≤ n / 2 ^ e := Nat.le_of_not_lt hlt
      have : 2 * 2 ^ e ≤ n / 2 ^ e * 2 ^ e :=
        Nat.mul_le_mul_right _ (le_trans (by decide) h53)
      calc 2 ^ (e + 1) = 2 * 2 ^ e := by rw [Nat.pow_succ, Nat.mul_comm]
        _ ≤ n / 2 ^ e * 2 ^ e := this
        _ ≤ n := Nat.div_mul_le_self n (2 ^ e)

theorem roundNat_pos (n : Nat) (h : 0 < n) : 0 < roundNat n := by
  unfold roundNat
  split
  · exact h
  · have hle := significandShift_pow_le 1024 0 n (by simpa using h)
    have hpos : 0 < 2 ^ significandShift 1024 0 n := Nat.two_pow_pos _
    have hq : 0 < n / 2 ^ significandShift 1024 0 n := Nat.div_pos hle hpos
    simp only
    split
    · exact Nat.mul_pos hq hpos
    · split
      · exact Nat.mul_pos (Nat.succ_pos _) hpos
      · split
        · exact Nat.mul_pos hq hpos
        · exact Nat.mul_pos (Nat.succ_pos _) hpos

theorem roundNat_of_lt (n : Nat) (h : n < 2 ^ 53) : roundNat n = n := by
  unfold roundNat
  rw [if_pos h]

/-- Integers of magnitude below `2 ^ 53` are doubles. -/
theorem toNumber_of_lt (x : Int) (h1 : -(2 ^ 53 : Int) < x) (h2 : x < 2 ^ 53) :
    toNumber x = x := by
  have hn : x.natAbs < 2 ^ 53 := by omega
  unfold toNumber
  rw [roundNat_of_lt _ hn]
  split <;> omega

theorem toNumber_nonneg (x : Int) (h : 0 ≤ x) : 0 ≤ toNumber x := by
  unfold toNumber
  rw [if_neg (by omega)]
  exact Int.natCast_nonneg _

theorem toNumber_neg (x : Int) (h : x < 0) : toNumber x < 0 := by
  unfold toNumber
  rw [if_pos h]
  have := roundNat_pos x.natAbs (by omega)
  omega

theorem jsMul_zero_left (b : Int) : jsMul 0 b = 0 := by
  unfold jsMul
  rw [Int.zero_mul]
  decide

/-- Spot checks of the rounded product: exact on small numbers, and
`3 * (2 ^ 53 - 1)` rounded down to a multiple of four. -/
theorem jsMul_examples :
    jsMul 3 89 = 267 ∧ jsMul (-3) 89 = -267 ∧
    jsMul 3 9007199254740991 = 27021597764222972 ∧
    3 * (9007199254740991 : Int) = 27021597764222973 ∧
    toNumber (2 ^ 53 + 1) = 2 ^ 53 ∧ toNumber (2 ^ 53 + 3) = 2 ^ 53 + 4 := by
  decide

/-! ## Calendar arithmetic -/

theorem isLeapYear_iff (y : Nat) :
    isLeapYear y = true ↔ (y % 4 = 0 ∧ y % 100 ≠ 0) ∨ y % 400 = 0 := by
  simp [isLeapYear]

theorem dayFromYear_succ (y : Nat) :
    dayFromYear (y + 1) = dayFromYear y + daysInYear y := by
  unfold dayFromYear daysInYear
  by_cases h : isLeapYear y = true
  · rw [if_pos h]
    rw [isLeapYear_iff] at h
    push_cast
    omega
  · rw [if_neg h]
    rw [isLeapYear_iff] at h
    push_cast
    omega

theorem dayFromYear_lt (y y' : Nat) (h : y < y') :
    dayFromYear y + daysInYear y ≤ dayFromYear y' := by
  induction y' with
  | zero => omega
  | succ n ih =>
    rcases Nat.lt_succ_iff_lt_or_eq.mp h with h1 | h1
    · have := ih h1
      rw [dayFromYear_succ]
      have : 0 ≤ (daysInYear n : Int) := Int.natCast_nonneg _
      omega
    · subst h1
      rw [dayFromYear_succ]

theorem daysBeforeMonth_step (y m m' : Nat) (hm : 1 ≤ m) (hlt : m < m') (hm' : m' ≤ 12) :
    daysBeforeMonth y m + daysInMonth y m ≤ daysBeforeMonth y m' := by
  have h12 : m = 1 ∨ m = 2 ∨ m = 3 ∨ m = 4 ∨ m = 5 ∨ m = 6 ∨ m = 7 ∨ m = 8 ∨ m = 9 ∨
      m = 10 ∨ m = 11 := by omega
  have h12' : m' = 2 ∨ m' = 3 ∨ m' = 4 ∨ m' = 5 ∨ m' = 6 ∨ m' = 7 ∨ m' = 8 ∨ m' = 9 ∨
      m' = 10 ∨ m' = 11 ∨ m' = 12 := by omega
  cases hb : isLeapYear y <;>
  rcases h12 with h | h | h | h | h | h | h | h | h | h | h <;>
  rcases h12' with h' | h' | h' | h' | h' | h' | h' | h' | h' | h' | h' <;>
  subst h <;> subst h' <;> simp [daysBeforeMonth, daysInMonth, hb] at hlt ⊢

theorem dayOfYear_le (y m d : Nat) (h : validYMD y m d = true) :
    daysBeforeMonth y m + d ≤ daysInYear y := by
  simp only [validYMD, Bool.and_eq_true, decide_eq_true_eq] at h
  obtain ⟨⟨⟨⟨_, h1⟩, h2⟩, h3⟩, h4⟩ := h
  have h12 : m = 1 ∨ m = 2 ∨ m = 3 ∨ m = 4 ∨ m = 5 ∨ m = 6 ∨ m = 7 ∨ m = 8 ∨ m = 9 ∨
      m = 10 ∨ m = 11 ∨ m = 12 := by omega
  cases hb : isLeapYear y <;>
  rcases h12 with h | h | h | h | h | h | h | h | h | h | h | h <;>
  subst h <;> simp [daysBeforeMonth, daysInMonth, daysInYear, hb] at h4 ⊢ <;> omega

/-- The day number respects the calendar order. -/
theorem epochDay_mono (a b : ISODate) (h : a ≤ b) : epochDay a ≤ epochDay b := by
  have ha := a.valid
  have hb := b.valid
  have ya := dayOfYear_le _ _ _ ha
  simp only [validYMD, Bool.and_eq_true, decide_eq_true_eq] at ha hb
  unfold epochDay
  rcases h with h | ⟨hy, h | ⟨hm, hd⟩⟩
  · have := dayFromYear_lt _ _ h
    omega
  · have := daysBeforeMonth_step a.year a.month b.month (by omega) h (by omega)
    rw [hy] at this ha ⊢
    omega
  · rw [hy, hm]; omega

/-- A date that is not before-or-equal another has a strictly larger day number. -/
theorem epochDay_lt_of_not_le (a b : ISODate) (h : ¬ a ≤ b) : epochDay b < epochDay a := by
  have ha := a.valid
  have hb := b.valid
  have yb := dayOfYear_le _ _ _ hb
  simp only [validYMD, Bool.and_eq_true, decide_eq_true_eq] at ha hb
  have h' : ¬ (a.year < b.year ∨
    (a.year = b.year ∧ (a.month < b.month ∨ (a.month = b.month ∧ a.day ≤ b.day)))) := h
  unfold epochDay
  by_cases hy : b.year < a.year
  · have := dayFromYear_lt _ _ hy
    omega
  · have hy' : a.year = b.year := by
      by_contra hne
      exact h' (Or.inl (by omega))
    by_cases hm : b.month < a.month
    · have := daysBeforeMonth_step b.year b.month a.month (by omega) hm (by omega)
      rw [hy'] at ha ⊢
      omega
    · have hm' : a.month = b.month := by
        by_contra hne
        exact h' (Or.inr ⟨hy', Or.inl (by omega)⟩)
      have hd : b.day < a.day := by
        by_contra hne
        exact h' (Or.inr ⟨hy', Or.inr ⟨hm', by omega⟩⟩)
      rw [hy', hm']; omega

/-- The calendar order is the order of the day numbers. -/
theorem le_iff_epochDay_le (a b : ISODate) : a ≤ b ↔ epochDay a ≤ epochDay b := by
  constructor
  · exact epochDay_mono a b
  · intro h
    by_contra hn
    have := epochDay_lt_of_not_le a b hn
    omega

theorem ceilDiv_mul_msPerDay (k : Int) : ceilDiv (k * msPerDay) msPerDay = k := by
  unfold ceilDiv msPerDay
  omega

/-- On the divisor of the handler `ceilDiv` is the ceiling of the exact quotient. -/
theorem ceilDiv_eq_ceil (a : Int) : ceilDiv a msPerDay = ⌈(a : ℚ) / (msPerDay : ℚ)⌉ := by
  symm
  rw [Int.ceil_eq_iff]
  have hpos : (0 : ℚ) < (msPerDay : ℚ) := by norm_num [msPerDay]
  unfold ceilDiv
  have h1 : (-((-a) / msPerDay) - 1) * msPerDay < a ∧ a ≤ (-((-a) / msPerDay)) * msPerDay := by
    unfold msPerDay; omega
  constructor
  · rw [lt_div_iff₀ hpos]
    have := h1.1
    exact_mod_cast this
  · rw [div_le_iff₀ hpos]
    have := h1.2
    exact_mod_cast this

/-- The day count of the handler is the difference of the two day numbers. -/
theorem rentalDays_eq (s e : ISODate) : rentalDays s e = epochDay e - epochDay s := by
  unfold rentalDays newDate
  rw [← sub_mul, ceilDiv_mul_msPerDay]


theorem ISODate.le_antisymm (a b : ISODate) (hab : a ≤ b) (hba : b ≤ a) : a = b := by
  have h1 : a.year < b.year ∨
    (a.year = b.year ∧ (a.month < b.month ∨ (a.month = b.month ∧ a.day ≤ b.day))) := hab
  have h2 : b.year < a.year ∨
    (b.year = a.year ∧ (b.month < a.month ∨ (b.month = a.month ∧ b.day ≤ a.day))) := hba
  have hy : a.year = b.year := by omega
  have hm : a.month = b.month := by omega
  have hd : a.day = b.day := by omega
  cases a
  cases b
  simp only at hy hm hd
  subst hy hm hd
  rfl

/-- The day count is 0 exactly when the two dates are the same day. -/
theorem rentalDays_eq_zero_iff (s e : ISODate) : rentalDays s e = 0 ↔ e = s := by
  rw [rentalDays_eq]
  constructor
  · intro h
    apply ISODate.le_antisymm
    · rw [le_iff_epochDay_le]; omega
    · rw [le_iff_epochDay_le]; omega
  · intro h
    rw [h]
    omega

/-- The day count is 0 or negative exactly when the end date is not after the
start date. -/
theorem rentalDays_nonpos_iff (s e : ISODate) : rentalDays s e ≤ 0 ↔ e ≤ s := by
  rw [rentalDays_eq, le_iff_epochDay_le]
  omega

/-- Spot checks of `newDate` against the time values that `Date` gives for
`1970-01-01`, `2000-03-01`, `2023-06-01` and `2023-06-04`. -/
theorem newDate_examples :
    newDate ⟨1970, 1, 1, by decide⟩ = 0 ∧
    newDate ⟨2000, 3, 1, by decide⟩ = 951868800000 ∧
    newDate june1 = 1685577600000 ∧ newDate june4 = 1685836800000 := by
  decide

/-! ## Collections -/

theorem find?_updateOne_same {α : Type} (p : α → Bool) (f : α → α)
    (hp : ∀ x, p (f x) = p x) (l : List α) :
    (updateOne p f l).find? p = (l.find? p).map f := by
  induction l with
  | nil => rfl
  | cons x xs ih =>
    by_cases hx : p x = true
    · simp [updateOne, hx, hp]
    · simp [updateOne, hx, List.find?_cons, ih]

theorem find?_updateOne_other {α : Type} (p q : α → Bool) (f : α → α)
    (hq : ∀ x, q (f x) = q x) (hpq : ∀ x, p x = true → q x = false) (l : List α) :
    (updateOne p f l).find? q = l.find? q := by
  induction l with
  | nil => rfl
  | cons x xs ih =>
    by_cases hx : p x = true
    · simp [updateOne, hx, List.find?_cons, hq, hpq x hx]
    · simp [updateOne, hx, List.find?_cons, ih]

theorem findVehicle_id (s : Store) (id : Nat) (v : Vehicle)
    (h : s.findVehicle id = some v) : v._id = id := by
  have := List.find?_some h
  simpa using this

theorem findVehicle_setAvailable_same (s : Store) (id : Nat) (b : Bool) :
    (s.setAvailable id b).findVehicle id =
      (s.findVehicle id).map (fun v => { v with available := b }) := by
  exact find?_updateOne_same (fun v : Vehicle => v._id == id)
    (fun v => { v with available := b }) (fun _ => rfl) s.vehicles

theorem findVehicle_setAvailable_other (s : Store) (id j : Nat) (b : Bool) (h : j ≠ id) :
    (s.setAvailable id b).findVehicle j = s.findVehicle j := by
  refine find?_updateOne_other (fun v : Vehicle => v._id == id) (fun v => v._id == j)
    (fun v => { v with available := b }) (fun _ => rfl) ?_ s.vehicles
  intro x hx
  simp only [beq_iff_eq] at hx
  simp [hx, Ne.symm h]

theorem findRental_setStatus_same (s : Store) (id : Nat) (st : Status) :
    (s.setStatus id st).findRental id =
      (s.findRental id).map (fun r => { r with status := st }) := by
  exact find?_updateOne_same (fun r : Rental => r._id == id)
    (fun r => { r with status := st }) (fun _ => rfl) s.rentals

theorem find?_and_of_find? {α : Type} (p q : α → Bool) (l : List α) (x : α)
    (h : l.find? p = some x) (hq : q x = true) :
    l.find? (fun y => p y && q y) = some x := by
  induction l with
  | nil => simp at h
  | cons y ys ih =>
    rw [List.find?_cons] at h ⊢
    by_cases hy : p y = true
    · rw [hy] at h
      simp only [Option.some.injEq] at h
      subst h
      simp [hy, hq]
    · simp only [Bool.not_eq_true] at hy
      rw [hy] at h
      simp only [hy, Bool.false_and]
      exact ih h

theorem findOwnedRental_eq_findRental (s : Store) (id a : Nat) (r : Rental)
    (h : s.findRental id = some r) (ho : r.userId = a) :
    s.findOwnedRental id a = some r :=
  find?_and_of_find? (fun r : Rental => r._id == id) (fun r => r.userId == a) s.rentals r h
    (by simp [ho])

theorem findOwnedRental_none (s : Store) (id a : Nat)
    (h : ∀ r ∈ s.rentals, r._id = id → r.userId ≠ a) :
    s.findOwnedRental id a = none := by
  unfold Store.findOwnedRental
  rw [List.find?_eq_none]
  intro r hr
  have := h r hr
  simp only [Bool.and_eq_true, beq_iff_eq, not_and]
  exact this

/-- The booking handler on a vehicle that exists and is available. -/
theorem postRentals_ok (s : Store) (a : Nat) (req : BookingRequest) (now : Int)
    (vehicle : Vehicle) (hv : s.findVehicle req.vehicleId = some vehicle)
    (ha : vehicle.available = true) :
    postRentals s a req now =
      (⟨201, Body.rental
          { _id := s.nextId, userId := a, vehicleId := req.vehicleId,
            startDate := req.startDate, endDate := req.endDate,
            totalPrice := jsMul (rentalDays req.startDate req.endDate) vehicle.pricePerDay,
            status := Status.pending, createdAt := now }⟩,
        (s.insertRental
          { _id := s.nextId, userId := a, vehicleId := req.vehicleId,
            startDate := req.startDate, endDate := req.endDate,
            totalPrice := jsMul (rentalDays req.startDate req.endDate) vehicle.pricePerDay,
            status := Status.pending, createdAt := now }).setAvailable req.vehicleId false) := by
  have hid := findVehicle_id s _ _ hv
  unfold postRentals
  simp only [hv, ha, hid]
  rfl

/-- The booking handler on an id without vehicle or on an unavailable vehicle. -/
theorem postRentals_rejected (s : Store) (a : Nat) (req : BookingRequest) (now : Int)
    (h : ∀ v, s.findVehicle req.vehicleId = some v → v.available = false) :
    postRentals s a req now = (⟨400, Body.error "Vehicle not available"⟩, s) := by
  unfold postRentals
  cases hv : s.findVehicle req.vehicleId with
  | none => rfl
  | some v => simp [h v hv]

/-- The cancel handler on a rental that the caller owns. -/
theorem patchRentalCancel_ok (s : Store) (a id : Nat) (r : Rental)
    (h : s.findOwnedRental id a = some r) :
    patchRentalCancel s a id =
      (⟨200, Body.rental { r with status := Status.cancelled }⟩,
        (s.setStatus r._id Status.cancelled).setAvailable r.vehicleId true) := by
  unfold patchRentalCancel
  simp only [h]

/-! ## Booking -/

/-- Counterexample to C1: at `2 ^ 53 - 1` per day, from 2023-06-01 to
2023-06-04, the whole number of days is 3 and three times the price is
27021597764222973, but the handler stores the double 27021597764222972. -/
theorem totalPrice_rounded :
    dearStore.findVehicle 3 = some dearVehicle ∧ dearVehicle.available = true ∧
    0 ≤ dearVehicle.pricePerDay ∧ june1 ≤ june4 ∧
    epochDay june4 - epochDay june1 = 3 ∧
    (epochDay june4 - epochDay june1) * dearVehicle.pricePerDay = 27021597764222973 ∧
    (postRentals dearStore 7 ⟨3, june1, june4⟩ 0).1.status = 201 ∧
    (postRentals dearStore 7 ⟨3, june1, june4⟩ 0).2.rentals.map (fun r => r.totalPrice)
      = [27021597764222972] := by
  decide

/-- C1 as amended: for a vehicle with a whole price-per-day `p ≥ 0` and ISO
calendar dates with `end ≥ start`, the booking handler creates a rental whose
`totalPrice` is non-negative, and is the whole number of days from start to
end times `p` whenever that product is below `2 ^ 53`. -/
theorem postRentals_totalPrice (s : Store) (a : Nat) (req : BookingRequest) (now : Int)
    (vehicle : Vehicle) (hv : s.findVehicle req.vehicleId = some vehicle)
    (ha : vehicle.available = true) (hp : 0 ≤ vehicle.pricePerDay)
    (hle : req.startDate ≤ req.endDate) :
    ∃ rental : Rental,
      (postRentals s a req now).1 = ⟨201, Body.rental rental⟩ ∧
      (postRentals s a req now).2.rentals = s.rentals ++ [rental] ∧
      0 ≤ rental.totalPrice ∧
      ((epochDay req.endDate - epochDay req.startDate) * vehicle.pricePerDay < 2 ^ 53 →
        rental.totalPrice =
          (epochDay req.endDate - epochDay req.startDate) * vehicle.pricePerDay) := by
  rw [postRentals_ok s a req now vehicle hv ha]
  have hd := epochDay_mono _ _ hle
  have hnn : 0 ≤ (epochDay req.endDate - epochDay req.startDate) * vehicle.pricePerDay :=
    Int.mul_nonneg (by omega) hp
  refine ⟨_, rfl, rfl, ?_, ?_⟩
  · show 0 ≤ jsMul (rentalDays req.startDate req.endDate) vehicle.pricePerDay
    rw [rentalDays_eq]
    exact toNumber_nonneg _ hnn
  · intro hlt
    show jsMul (rentalDays req.startDate req.endDate) vehicle.pricePerDay = _
    rw [rentalDays_eq]
    exact toNumber_of_lt _ (by omega) hlt

/-- Witness of the amended C1: the seeded vehicle priced 89 per day, booked from
2023-06-01 to 2023-06-04. -/
theorem postRentals_totalPrice_witness :
    (seedStore.findVehicle 1 = some tesla ∧ tesla.available = true ∧
      0 ≤ tesla.pricePerDay ∧ june1 ≤ june4) ∧
    ∃ rental : Rental,
      (postRentals seedStore 7 ⟨1, june1, june4⟩ 0).1 = ⟨201, Body.rental rental⟩ ∧
      (postRentals seedStore 7 ⟨1, june1, june4⟩ 0).2.rentals =
        seedStore.rentals ++ [rental] ∧
      0 ≤ rental.totalPrice ∧
      ((epochDay june4 - epochDay june1) * tesla.pricePerDay < 2 ^ 53 →
        rental.totalPrice = (epochDay june4 - epochDay june1) * tesla.pricePerDay) :=
  ⟨by decide,
    postRentals_totalPrice seedStore 7 ⟨1, june1, june4⟩ 0 tesla (by decide) (by decide)
      (by decide) (by decide)⟩

/-- The scenario of C1 evaluated: 89 per day from 2023-06-01 to 2023-06-04 is
three days and a stored price of 267. -/
theorem postRentals_scenario_267 :
    rentalDays june1 june4 = 3 ∧
    (postRentals seedStore 7 ⟨1, june1, june4⟩ 0).2.rentals.map (fun r => r.totalPrice)
      = [267] := by
  decide

/-- C2: when the requested vehicle exists and is available, the booking handler
answers 201 with the created rental, appends exactly that rental to the ledger
(owner `a`, the requested vehicle and dates, the computed price, status
`pending`), flags that vehicle unavailable and leaves every other vehicle as it
was. -/
theorem postRentals_creates_pending (s : Store) (a : Nat) (req : BookingRequest)
    (now : Int) (vehicle : Vehicle) (hv : s.findVehicle req.vehicleId = some vehicle)
    (ha : vehicle.available = true) :
    ∃ rental : Rental,
      (postRentals s a req now).1 = ⟨201, Body.rental rental⟩ ∧
      (postRentals s a req now).2.rentals = s.rentals ++ [rental] ∧
      rental.userId = a ∧ rental.vehicleId = req.vehicleId ∧
      rental.startDate = req.startDate ∧ rental.endDate = req.endDate ∧
      rental.totalPrice = jsMul (rentalDays req.startDate req.endDate) vehicle.pricePerDay ∧
      rental.status = Status.pending ∧
      (postRentals s a req now).2.findVehicle req.vehicleId =
        some { vehicle with available := false } ∧
      ∀ j, j ≠ req.vehicleId →
        (postRentals s a req now).2.findVehicle j = s.findVehicle j := by
  rw [postRentals_ok s a req now vehicle hv ha]
  refine ⟨_, rfl, rfl, rfl, rfl, rfl, rfl, rfl, rfl, ?_, ?_⟩
  · show (Store.setAvailable _ _ _).findVehicle _ = _
    rw [findVehicle_setAvailable_same]
    show Option.map _ (s.findVehicle req.vehicleId) = _
    rw [hv]
    rfl
  · intro j hj
    show (Store.setAvailable _ _ _).findVehicle _ = _
    rw [findVehicle_setAvailable_other _ _ _ _ hj]
    rfl

/-- Witness of C2 on the seeded store. -/
theorem postRentals_creates_pending_witness :
    (seedStore.findVehicle 1 = some tesla ∧ tesla.available = true) ∧
    ∃ rental : Rental,
      (postRentals seedStore 7 ⟨1, june1, june4⟩ 0).1 = ⟨201, Body.rental rental⟩ ∧
      (postRentals seedStore 7 ⟨1, june1, june4⟩ 0).2.rentals =
        seedStore.rentals ++ [rental] ∧
      rental.userId = 7 ∧ rental.vehicleId = 1 ∧
      rental.startDate = june1 ∧ rental.endDate = june4 ∧
      rental.totalPrice = jsMul (rentalDays june1 june4) tesla.pricePerDay ∧
      rental.status = Status.pending ∧
      (postRentals seedStore 7 ⟨1, june1, june4⟩ 0).2.findVehicle 1 =
        some { tesla with available := false } ∧
      ∀ j, j ≠ 1 →
        (postRentals seedStore 7 ⟨1, june1, june4⟩ 0).2.findVehicle j =
          seedStore.findVehicle j :=
  ⟨by decide,
    postRentals_creates_pending seedStore 7 ⟨1, june1, june4⟩ 0 tesla (by decide)
      (by decide)⟩

/-- C3: when the requested vehicle exists and is flagged unavailable, the
booking handler answers 400 `Vehicle not available` and leaves the store as it
was (no rental created, no vehicle changed), whoever the caller is and whatever
the dates are. -/
theorem postRentals_unavailable (s : Store) (a : Nat) (req : BookingRequest) (now : Int)
    (vehicle : Vehicle) (hv : s.findVehicle req.vehicleId = some vehicle)
    (ha : vehicle.available = false) :
    postRentals s a req now = (⟨400, Body.error "Vehicle not available"⟩, s) ∧
    ∀ (b : Nat) (start stop : ISODate) (now' : Int),
      postRentals s b ⟨req.vehicleId, start, stop⟩ now' = postRentals s a req now := by
  have key : ∀ (b : Nat) (r : BookingRequest) (t : Int), r.vehicleId = req.vehicleId →
      postRentals s b r t = (⟨400, Body.error "Vehicle not available"⟩, s) := by
    intro b r t hr
    apply postRentals_rejected
    intro v hv'
    rw [hr, hv] at hv'
    cases hv'
    exact ha
  refine ⟨key a req now rfl, ?_⟩
  intro b start stop now'
  rw [key a req now rfl, key b ⟨req.vehicleId, start, stop⟩ now' rfl]

/-- Witness of C3: the first vehicle is already booked when account 8 asks for it. -/
theorem postRentals_unavailable_witness :
    (bookedStore.findVehicle 1 = some teslaBooked ∧ teslaBooked.available = false) ∧
    (postRentals bookedStore 8 ⟨1, june1, june4⟩ 5 =
        (⟨400, Body.error "Vehicle not available"⟩, bookedStore) ∧
      ∀ (b : Nat) (start stop : ISODate) (now' : Int),
        postRentals bookedStore b ⟨1, start, stop⟩ now' =
          postRentals bookedStore 8 ⟨1, june1, june4⟩ 5) :=
  ⟨by decide,
    postRentals_unavailable bookedStore 8 ⟨1, june1, june4⟩ 5 teslaBooked (by decide)
      (by decide)⟩

/-! ## Cancellation -/

/-- C4: cancelling a `pending` rental by its owner answers 200 with the rental
in status `cancelled`, stores that status, and sets the available flag of the
referenced vehicle to true. -/
theorem patchRentalCancel_pending (s : Store) (a id : Nat) (r : Rental)
    (hr : s.findRental id = some r) (ho : r.userId = a)
    (_hp : r.status = Status.pending) :
    (patchRentalCancel s a id).1 =
      ⟨200, Body.rental { r with status := Status.cancelled }⟩ ∧
    (patchRentalCancel s a id).2.findRental id =
      some { r with status := Status.cancelled } ∧
    (patchRentalCancel s a id).2.findVehicle r.vehicleId =
      (s.findVehicle r.vehicleId).map (fun v => { v with available := true }) ∧
    ∀ v, (patchRentalCancel s a id).2.findVehicle r.vehicleId = some v →
      v.available = true := by
  have hid : r._id = id := by
    have := List.find?_some hr
    simpa using this
  subst hid
  rw [patchRentalCancel_ok s a r._id r (findOwnedRental_eq_findRental s r._id a r hr ho)]
  have hveh : ((s.setStatus r._id Status.cancelled).setAvailable r.vehicleId true).findVehicle
      r.vehicleId = (s.findVehicle r.vehicleId).map (fun v => { v with available := true }) := by
    rw [findVehicle_setAvailable_same]
    rfl
  refine ⟨rfl, ?_, hveh, ?_⟩
  · show (s.setStatus r._id Status.cancelled).findRental r._id = _
    rw [findRental_setStatus_same, hr]
    rfl
  · intro v hv
    show v.available = true
    rw [hveh] at hv
    cases hs : s.findVehicle r.vehicleId with
    | none => rw [hs] at hv; cases hv
    | some w =>
      rw [hs] at hv
      simp only [Option.map_some', Option.some.injEq] at hv
      rw [← hv]

/-- Witness of C4: account 7 cancels the pending rental 100 of `bookedStore`. -/
theorem patchRentalCancel_pending_witness :
    (bookedStore.findRental 100 = some firstRental ∧ firstRental.userId = 7 ∧
      firstRental.status = Status.pending) ∧
    ((patchRentalCancel bookedStore 7 100).1 =
        ⟨200, Body.rental { firstRental with status := Status.cancelled }⟩ ∧
      (patchRentalCancel bookedStore 7 100).2.findRental 100 =
        some { firstRental with status := Status.cancelled } ∧
      (patchRentalCancel bookedStore 7 100).2.findVehicle firstRental.vehicleId =
        (bookedStore.findVehicle firstRental.vehicleId).map
          (fun v => { v with available := true }) ∧
      ∀ v, (patchRentalCancel bookedStore 7 100).2.findVehicle firstRental.vehicleId = some v →
        v.available = true) :=
  ⟨by decide,
    patchRentalCancel_pending bookedStore 7 100 firstRental (by decide) (by decide)
      (by decide)⟩

/-- Counterexample to C5: no rental has the id `555`, which is no `ObjectId`;
the cancel route answers 500, not 404. -/
theorem cancel_malformed_id_500 :
    (∀ r ∈ bookedStore.rentals, IdParam.objectId r._id ≠ IdParam.malformed "555") ∧
    patchRentalCancelRoute bookedStore 7 (IdParam.malformed "555") =
      (⟨500, Body.error "Cast to ObjectId failed"⟩, bookedStore) ∧
    (patchRentalCancelRoute bookedStore 7 (IdParam.malformed "555")).1.status ≠ 404 := by
  decide

/-- C5 as amended: for an id that is an `ObjectId`, when no rental has it or
every rental with it belongs to another account, the cancel route answers 404
`Rental not found` (the same response in both cases) and leaves the store as
it was; for an id that is no `ObjectId` it answers 500 and leaves the store as
it was. -/
theorem patchRentalCancel_not_found (s : Store) (a id : Nat)
    (h : (∀ r ∈ s.rentals, r._id ≠ id) ∨
      (∀ r ∈ s.rentals, r._id = id → r.userId ≠ a)) :
    patchRentalCancel s a id = (⟨404, Body.error "Rental not found"⟩, s) ∧
    patchRentalCancelRoute s a (IdParam.objectId id) =
      (⟨404, Body.error "Rental not found"⟩, s) ∧
    ∀ raw : String, patchRentalCancelRoute s a (IdParam.malformed raw) =
      (⟨500, Body.error "Cast to ObjectId failed"⟩, s) := by
  have hnone : s.findOwnedRental id a = none := by
    apply findOwnedRental_none
    rcases h with h | h
    · intro r hr hid
      exact absurd hid (h r hr)
    · exact h
  have h404 : patchRentalCancel s a id = (⟨404, Body.error "Rental not found"⟩, s) := by
    unfold patchRentalCancel
    rw [hnone]
  exact ⟨h404, h404, fun _ => rfl⟩

/-- Witness of the amended C5: account 8 tries to cancel rental 100, which
belongs to account 7. -/
theorem patchRentalCancel_not_found_witness :
    ((∀ r ∈ bookedStore.rentals, r._id ≠ 100) ∨
      (∀ r ∈ bookedStore.rentals, r._id = 100 → r.userId ≠ 8)) ∧
    (patchRentalCancel bookedStore 8 100 =
        (⟨404, Body.error "Rental not found"⟩, bookedStore) ∧
      patchRentalCancelRoute bookedStore 8 (IdParam.objectId 100) =
        (⟨404, Body.error "Rental not found"⟩, bookedStore) ∧
      ∀ raw : String, patchRentalCancelRoute bookedStore 8 (IdParam.malformed raw) =
        (⟨500, Body.error "Cast to ObjectId failed"⟩, bookedStore)) :=
  ⟨by decide, patchRentalCancel_not_found bookedStore 8 100 (by decide)⟩

/-- The two cases of C5 evaluated: an id that no rental has and a rental of
another account give the same response. -/
theorem cancel_404_same_response :
    (patchRentalCancel bookedStore 7 555).1 = (patchRentalCancel bookedStore 8 100).1 := by
  decide


/-! ## The availability invariant under the pending-only discipline -/

theorem updateOne_eq_map {α : Type} (key : α → Nat) (i : Nat) (f : α → α)
    (l : List α) (hnd : (l.map key).Nodup) :
    updateOne (fun x => key x == i) f l = l.map (fun x => if key x = i then f x else x) := by
  induction l with
  | nil => rfl
  | cons x xs ih =>
    rw [List.map_cons, List.nodup_cons] at hnd
    by_cases hx : key x = i
    · have hxs : xs.map (fun y => if key y = i then f y else y) = xs := by
        conv_rhs => rw [← List.map_id xs]
        apply List.map_congr_left
        intro y hy
        have : key y ≠ i := by
          intro h
          apply hnd.1
          rw [hx, ← h]
          exact List.mem_map_of_mem key hy
        simp [this]
      simp [updateOne, hx, hxs]
    · simp [updateOne, hx, ih hnd.2]

theorem eq_of_id_eq {α : Type} (key : α → Nat) (l : List α) (hnd : (l.map key).Nodup)
    (x y : α) (hx : x ∈ l) (hy : y ∈ l) (h : key x = key y) : x = y :=
  List.inj_on_of_nodup_map hnd hx hy h

theorem findOwnedRental_mem (s : Store) (id a : Nat) (r : Rental)
    (h : s.findOwnedRental id a = some r) : r ∈ s.rentals ∧ r._id = id ∧ r.userId = a := by
  refine ⟨List.mem_of_find?_eq_some h, ?_⟩
  have := List.find?_some h
  simpa using this

theorem findVehicle_mem (s : Store) (id : Nat) (v : Vehicle)
    (h : s.findVehicle id = some v) : v ∈ s.vehicles :=
  List.mem_of_find?_eq_some h


theorem setAvailable_vehicles (s : Store) (id : Nat) (b : Bool)
    (hnd : (s.vehicles.map (fun v => v._id)).Nodup) :
    (s.setAvailable id b).vehicles =
      s.vehicles.map (fun v => if v._id = id then { v with available := b } else v) :=
  updateOne_eq_map (fun v : Vehicle => v._id) id (fun v => { v with available := b })
    s.vehicles hnd

theorem setStatus_rentals (s : Store) (id : Nat) (st : Status)
    (hnd : (s.rentals.map (fun r => r._id)).Nodup) :
    (s.setStatus id st).rentals =
      s.rentals.map (fun r => if r._id = id then { r with status := st } else r) :=
  updateOne_eq_map (fun r : Rental => r._id) id (fun r => { r with status := st })
    s.rentals hnd

theorem map_id_setAvailable (l : List Vehicle) (id : Nat) (b : Bool) :
    (l.map (fun v => if v._id = id then { v with available := b } else v)).map
      (fun v => v._id) = l.map (fun v => v._id) := by
  rw [List.map_map]
  apply List.map_congr_left
  intro v _
  by_cases h : v._id = id <;> simp [h]

theorem map_id_setStatus (l : List Rental) (id : Nat) (st : Status) :
    (l.map (fun r => if r._id = id then { r with status := st } else r)).map
      (fun r => r._id) = l.map (fun r => r._id) := by
  rw [List.map_map]
  apply List.map_congr_left
  intro r _
  by_cases h : r._id = id <;> simp [h]

/-- Initial stores are consistent. -/
theorem Store.Consistent.of_initial (s : Store) (h : s.initial) : s.Consistent := by
  obtain ⟨hr, hv, hnd⟩ := h
  refine ⟨hnd, ?_, ?_, ?_, ?_⟩
  · rw [hr]; exact List.nodup_nil
  · intro r hmem; rw [hr] at hmem; cases hmem
  · intro r1 hmem; rw [hr] at hmem; cases hmem
  · intro v hmem
    rw [hv v hmem, hr]
    simp

/-- Inserting an active rental with the fresh id on an available vehicle and
flagging that vehicle unavailable keeps the store consistent. -/
theorem Store.Consistent.book (s : Store) (r : Rental) (vehicle : Vehicle)
    (h : s.Consistent) (hv : s.findVehicle r.vehicleId = some vehicle)
    (ha : vehicle.available = true) (hrid : r._id = s.nextId) (hact : r.active = true) :
    ((s.insertRental r).setAvailable r.vehicleId false).Consistent := by
  have hvid := findVehicle_id s _ _ hv
  have hvmem := findVehicle_mem s _ _ hv
  have hfree : ∀ x ∈ s.rentals, x.vehicleId = r.vehicleId → x.active = false := by
    intro x hx hxv
    by_contra hxa
    have := (h.avail vehicle hvmem).mpr ⟨x, hx, by rw [hxv, hvid], by simpa using hxa⟩
    rw [ha] at this
    cases this
  have hveh : ((s.insertRental r).setAvailable r.vehicleId false).vehicles =
      s.vehicles.map
        (fun v => if v._id = r.vehicleId then { v with available := false } else v) :=
    setAvailable_vehicles (s.insertRental r) _ _ h.vehicleIds
  have hren : ((s.insertRental r).setAvailable r.vehicleId false).rentals =
      s.rentals ++ [r] := rfl
  refine ⟨?_, ?_, ?_, ?_, ?_⟩
  · rw [hveh, map_id_setAvailable]
    exact h.vehicleIds
  · rw [hren, List.map_append, List.nodup_append]
    refine ⟨h.rentalIds, List.nodup_singleton _, ?_⟩
    intro i hi hi'
    simp only [List.map_cons, List.map_nil, List.mem_singleton] at hi'
    obtain ⟨x, hx, hxi⟩ := List.mem_map.mp hi
    have := h.fresh x hx
    omega
  · intro x hx
    show x._id < s.nextId + 1
    rw [hren] at hx
    rcases List.mem_append.mp hx with hx1 | hx1
    · have := h.fresh x hx1
      omega
    · rw [List.mem_singleton] at hx1
      rw [hx1, hrid]
      exact Nat.lt_succ_self _
  · intro r1 hr1 r2 hr2 h1 h2 h12
    rw [hren] at hr1 hr2
    rcases List.mem_append.mp hr1 with m1 | m1 <;>
      rcases List.mem_append.mp hr2 with m2 | m2
    · exact h.oneActive r1 m1 r2 m2 h1 h2 h12
    · rw [List.mem_singleton] at m2
      have : r1.vehicleId = r.vehicleId := by rw [h12, m2]
      rw [hfree r1 m1 this] at h1
      cases h1
    · rw [List.mem_singleton] at m1
      have : r2.vehicleId = r.vehicleId := by rw [← h12, m1]
      rw [hfree r2 m2 this] at h2
      cases h2
    · rw [List.mem_singleton] at m1 m2
      rw [m1, m2]
  · intro w hw
    rw [hveh] at hw
    rw [hren]
    obtain ⟨v, hvm, rfl⟩ := List.mem_map.mp hw
    by_cases hid : v._id = r.vehicleId
    · simp only [hid, if_true]
      constructor
      · intro _
        exact ⟨r, List.mem_append_right _ (List.mem_singleton_self _), rfl, hact⟩
      · intro _
        trivial
    · simp only [hid, if_false]
      rw [h.avail v hvm]
      constructor
      · rintro ⟨x, hx, hxv, hxa⟩
        exact ⟨x, List.mem_append_left _ hx, hxv, hxa⟩
      · rintro ⟨x, hx, hxv, hxa⟩
        rcases List.mem_append.mp hx with m | m
        · exact ⟨x, m, hxv, hxa⟩
        · rw [List.mem_singleton] at m
          rw [m] at hxv
          exact absurd hxv.symm hid

/-- The booking handler keeps the store consistent. -/
theorem postRentals_consistent (s : Store) (a : Nat) (req : BookingRequest) (now : Int)
    (h : s.Consistent) : (postRentals s a req now).2.Consistent := by
  cases hv : s.findVehicle req.vehicleId with
  | none =>
    rw [postRentals_rejected s a req now (by intro v hv'; rw [hv] at hv'; cases hv')]
    exact h
  | some vehicle =>
    cases ha : vehicle.available with
    | false =>
      rw [postRentals_rejected s a req now
        (by intro v hv'; rw [hv] at hv'; cases hv'; exact ha)]
      exact h
    | true =>
      rw [postRentals_ok s a req now vehicle hv ha]
      exact Store.Consistent.book s
        { _id := s.nextId, userId := a, vehicleId := req.vehicleId,
          startDate := req.startDate, endDate := req.endDate,
          totalPrice := jsMul (rentalDays req.startDate req.endDate) vehicle.pricePerDay,
          status := Status.pending, createdAt := now } vehicle h hv ha rfl rfl

theorem active_of_pending (r : Rental) (h : r.status = Status.pending) : r.active = true := by
  simp [Rental.active, h]

theorem not_active_cancelled (r : Rental) :
    ({ r with status := Status.cancelled } : Rental).active = false := by
  simp [Rental.active]

/-- Cancelling a pending rental and flagging its vehicle available keeps the
store consistent. -/
theorem Store.Consistent.cancel (s : Store) (r : Rental) (h : s.Consistent)
    (hr : r ∈ s.rentals) (hp : r.status = Status.pending) :
    ((s.setStatus r._id Status.cancelled).setAvailable r.vehicleId true).Consistent := by
  have hveh : ((s.setStatus r._id Status.cancelled).setAvailable r.vehicleId true).vehicles =
      s.vehicles.map
        (fun v => if v._id = r.vehicleId then { v with available := true } else v) :=
    setAvailable_vehicles (s.setStatus r._id Status.cancelled) _ _ h.vehicleIds
  have hren : ((s.setStatus r._id Status.cancelled).setAvailable r.vehicleId true).rentals =
      s.rentals.map
        (fun x => if x._id = r._id then { x with status := Status.cancelled } else x) :=
    setStatus_rentals s _ _ h.rentalIds
  -- an active rental of the new ledger is an unchanged rental of the old one
  have hold : ∀ x ∈ s.rentals,
      (if x._id = r._id then { x with status := Status.cancelled } else x).active = true →
      x._id ≠ r._id ∧ x.active = true := by
    intro x _ hx
    by_cases hid : x._id = r._id
    · rw [if_pos hid, not_active_cancelled] at hx
      cases hx
    · rw [if_neg hid] at hx
      exact ⟨hid, hx⟩
  refine ⟨?_, ?_, ?_, ?_, ?_⟩
  · rw [hveh, map_id_setAvailable]
    exact h.vehicleIds
  · rw [hren, map_id_setStatus]
    exact h.rentalIds
  · intro x' hx'
    rw [hren] at hx'
    obtain ⟨x, hx, rfl⟩ := List.mem_map.mp hx'
    have := h.fresh x hx
    show _ < s.nextId
    by_cases hid : x._id = r._id
    · rw [if_pos hid]; exact this
    · rw [if_neg hid]; exact this
  · intro r1 hr1 r2 hr2 h1 h2 h12
    rw [hren] at hr1 hr2
    obtain ⟨x1, hx1, rfl⟩ := List.mem_map.mp hr1
    obtain ⟨x2, hx2, rfl⟩ := List.mem_map.mp hr2
    obtain ⟨n1, a1⟩ := hold x1 hx1 h1
    obtain ⟨n2, a2⟩ := hold x2 hx2 h2
    rw [if_neg n1, if_neg n2] at h12 ⊢
    exact h.oneActive x1 hx1 x2 hx2 a1 a2 h12
  · intro w hw
    rw [hveh] at hw
    rw [hren]
    obtain ⟨v, hvm, rfl⟩ := List.mem_map.mp hw
    by_cases hid : v._id = r.vehicleId
    · simp only [hid, if_true]
      constructor
      · intro hf
        cases hf
      · rintro ⟨x', hx', hxv, hxa⟩
        exfalso
        obtain ⟨x, hx, rfl⟩ := List.mem_map.mp hx'
        obtain ⟨n, a⟩ := hold x hx hxa
        rw [if_neg n] at hxv
        exact n (h.oneActive x hx r hr a (active_of_pending r hp) hxv)
    · simp only [hid, if_false]
      rw [h.avail v hvm]
      constructor
      · rintro ⟨x, hx, hxv, hxa⟩
        have hne : x._id ≠ r._id := by
          intro he
          have := eq_of_id_eq (fun y : Rental => y._id) s.rentals h.rentalIds x r hx hr he
          rw [this] at hxv
          exact hid hxv.symm
        refine ⟨x, List.mem_map.mpr ⟨x, hx, ?_⟩, hxv, hxa⟩
        rw [if_neg hne]
      · rintro ⟨x', hx', hxv, hxa⟩
        obtain ⟨x, hx, rfl⟩ := List.mem_map.mp hx'
        obtain ⟨n, a⟩ := hold x hx hxa
        rw [if_neg n] at hxv
        exact ⟨x, hx, hxv, a⟩

/-- The cancel handler keeps the store consistent when the rental it cancels
is pending. -/
theorem patchRentalCancel_consistent (s : Store) (a id : Nat) (h : s.Consistent)
    (hg : (Op.cancel a id).pendingOnly s = true) :
    (patchRentalCancel s a id).2.Consistent := by
  cases hf : s.findOwnedRental id a with
  | none =>
    unfold patchRentalCancel
    rw [hf]
    exact h
  | some r =>
    rw [patchRentalCancel_ok s a id r hf]
    have hp : r.status = Status.pending := by
      simp only [Op.pendingOnly, hf, beq_iff_eq] at hg
      exact hg
    exact Store.Consistent.cancel s r h (findOwnedRental_mem s id a r hf).1 hp

/-- One request that passes the pending-only check keeps the store consistent. -/
theorem step_consistent (s : Store) (op : Op) (h : s.Consistent)
    (hg : op.pendingOnly s = true) : (step s op).Consistent := by
  cases op with
  | book a req now => exact postRentals_consistent s a req now h
  | cancel a id => exact patchRentalCancel_consistent s a id h hg

/-- A sequence of requests that pass the pending-only check keeps the store
consistent. -/
theorem run_consistent (ops : List Op) (s : Store) (h : s.Consistent)
    (hg : allPendingOnly s ops = true) : (run s ops).Consistent := by
  induction ops generalizing s with
  | nil => exact h
  | cons op ops ih =>
    simp only [allPendingOnly, Bool.and_eq_true] at hg
    exact ih (step s op) (step_consistent s op h hg.1) hg.2

/-- With the status check of the client in force the invariant of C6 holds:
from an initial store, every sequence of bookings and of cancellations of
pending rentals ends in a store that satisfies the availability invariant. -/
theorem availabilityInvariant_of_pendingOnly (s : Store) (ops : List Op)
    (hinit : s.initial) (hg : allPendingOnly s ops = true) :
    availabilityInvariant (run s ops) :=
  (run_consistent ops s (Store.Consistent.of_initial s hinit) hg).avail

/-- The guarded invariant on the sample data: the sequence `rebook` passes the
pending-only check and keeps the invariant, and the second cancellation of
rental 100 is the request that the check would stop. -/
theorem availabilityInvariant_of_pendingOnly_rebook :
    (seedStore.initial ∧ allPendingOnly seedStore rebook = true) ∧
    availabilityInvariant (run seedStore rebook) ∧
    allPendingOnly seedStore (rebook ++ [Op.cancel 7 100]) = false :=
  ⟨⟨⟨rfl, by decide, by decide⟩, by decide⟩,
    availabilityInvariant_of_pendingOnly seedStore rebook ⟨rfl, by decide, by decide⟩
      (by decide),
    by decide⟩

/-! ## Behaviour that differs from the specification -/

/-- C6: the availability invariant does not survive every sequence of bookings
and cancellations.  From the seeded store (empty ledger, every vehicle
available) account 7 books vehicle 1 and cancels, account 8 books vehicle 1, and
account 7 cancels rental 100 a second time: the invariant holds up to the last
request and fails after it, with vehicle 1 flagged available while rental 101
on it is `pending`. -/
theorem availabilityInvariant_broken :
    seedStore.rentals = [] ∧ (∀ v ∈ seedStore.vehicles, v.available = true) ∧
    availabilityInvariant rebookedStore ∧
    ¬ availabilityInvariant (run seedStore (rebook ++ [Op.cancel 7 100])) ∧
    ((run seedStore (rebook ++ [Op.cancel 7 100])).findVehicle 1).map
      (fun v => v.available) = some true ∧
    ((run seedStore (rebook ++ [Op.cancel 7 100])).findRental 101).map
      (fun r => (r.vehicleId, r.status)) = some (1, Status.pending) := by
  decide

/-- C7: the cancel handler has no status guard.  Rental 100 of `rebookedStore`
is already `cancelled` and vehicle 1 is booked by account 8; cancelling rental
100 again answers 200 and flags vehicle 1 available.  On `confirmedStore` the
`confirmed` rental 100 is cancelled with a 200 as well. -/
theorem patchRentalCancel_no_status_guard :
    (rebookedStore.findRental 100).map (fun r => (r.userId, r.status))
      = some (7, Status.cancelled) ∧
    (rebookedStore.findVehicle 1).map (fun v => v.available) = some false ∧
    (patchRentalCancel rebookedStore 7 100).1.status = 200 ∧
    ((patchRentalCancel rebookedStore 7 100).2.findVehicle 1).map (fun v => v.available)
      = some true ∧
    (confirmedStore.findRental 100).map (fun r => (r.userId, r.status))
      = some (7, Status.confirmed) ∧
    (patchRentalCancel confirmedStore 7 100).1.status = 200 ∧
    ((patchRentalCancel confirmedStore 7 100).2.findRental 100).map (fun r => r.status)
      = some Status.cancelled ∧
    ((patchRentalCancel confirmedStore 7 100).2.findVehicle 1).map (fun v => v.available)
      = some true := by
  decide

/-- Counterexample to C8: a booking from 2023-06-01 to 2023-06-01 has day count
0, yet the handler answers 201, stores a rental and flags the vehicle
unavailable. -/
theorem zero_day_booking_accepted :
    rentalDays june1 june1 ≤ 0 ∧
    (seedStore.findVehicle 1).map (fun v => v.available) = some true ∧
    (postRentals seedStore 7 ⟨1, june1, june1⟩ 0).1.status = 201 ∧
    (postRentals seedStore 7 ⟨1, june1, june1⟩ 0).2.rentals ≠ seedStore.rentals ∧
    ((postRentals seedStore 7 ⟨1, june1, june1⟩ 0).2.findVehicle 1).map
      (fun v => v.available) = some false := by
  decide

/-- C8 as amended: a request on an available vehicle whose computed day count
is 0 is not rejected; the handler answers 201 with the created rental, appends
it to the ledger with `totalPrice` 0 and status `pending`, and flags the vehicle
unavailable. -/
theorem postRentals_zero_days (s : Store) (a : Nat) (req : BookingRequest) (now : Int)
    (vehicle : Vehicle) (hv : s.findVehicle req.vehicleId = some vehicle)
    (ha : vehicle.available = true)
    (hz : rentalDays req.startDate req.endDate = 0) :
    ∃ rental : Rental,
      (postRentals s a req now).1 = ⟨201, Body.rental rental⟩ ∧
      (postRentals s a req now).2.rentals = s.rentals ++ [rental] ∧
      rental.totalPrice = 0 ∧ rental.status = Status.pending ∧
      (postRentals s a req now).2.findVehicle req.vehicleId =
        some { vehicle with available := false } := by
  rw [postRentals_ok s a req now vehicle hv ha]
  refine ⟨_, rfl, rfl, ?_, rfl, ?_⟩
  · show jsMul (rentalDays req.startDate req.endDate) vehicle.pricePerDay = 0
    rw [hz, jsMul_zero_left]
  · show (Store.setAvailable _ _ _).findVehicle _ = _
    rw [findVehicle_setAvailable_same]
    show Option.map _ (s.findVehicle req.vehicleId) = _
    rw [hv]
    rfl

/-- Witness of the amended C8: the first seeded vehicle booked from 2023-06-01
to 2023-06-01. -/
theorem postRentals_zero_days_witness :
    (seedStore.findVehicle 1 = some tesla ∧ tesla.available = true ∧
      rentalDays june1 june1 = 0) ∧
    ∃ rental : Rental,
      (postRentals seedStore 7 ⟨1, june1, june1⟩ 0).1 = ⟨201, Body.rental rental⟩ ∧
      (postRentals seedStore 7 ⟨1, june1, june1⟩ 0).2.rentals =
        seedStore.rentals ++ [rental] ∧
      rental.totalPrice = 0 ∧ rental.status = Status.pending ∧
      (postRentals seedStore 7 ⟨1, june1, june1⟩ 0).2.findVehicle 1 =
        some { tesla with available := false } :=
  ⟨by decide,
    postRentals_zero_days seedStore 7 ⟨1, june1, june1⟩ 0 tesla (by decide) (by decide)
      (by decide)⟩

/-- C9: the stored price is not clamped at 0.  Booking the vehicle priced 89 per
day from 2023-06-04 to 2023-06-01 gives day count -3 and stores `totalPrice`
-267, where `max(0, days) * pricePerDay` is 0. -/
theorem postRentals_negative_totalPrice :
    rentalDays june4 june1 = -3 ∧
    (postRentals seedStore 7 ⟨1, june4, june1⟩ 0).1.status = 201 ∧
    (postRentals seedStore 7 ⟨1, june4, june1⟩ 0).2.rentals.map (fun r => r.totalPrice)
      = [-267] ∧
    max 0 (rentalDays june4 june1) * tesla.pricePerDay = 0 := by
  decide

/-- Counterexample to C10: no vehicle has id 99, and the handler answers 400,
not 404, with the very response it gives for the booked vehicle 1. -/
theorem unknown_vehicle_answer_400 :
    seedStore.findVehicle 99 = none ∧
    (postRentals seedStore 7 ⟨99, june1, june4⟩ 0).1.status ≠ 404 ∧
    (bookedStore.findVehicle 1).map (fun v => v.available) = some false ∧
    (postRentals seedStore 7 ⟨99, june1, june4⟩ 0).1 =
      (postRentals bookedStore 8 ⟨1, june1, june4⟩ 0).1 := by
  decide

/-- C10 as amended: for a vehicle id that is an `ObjectId` and identifies no
vehicle the booking route answers 400 `Vehicle not available`, the same
response as for an existing vehicle that is flagged unavailable, and leaves
the store as it was; for a `vehicleId` that is no `ObjectId` it answers 500
and leaves the store as it was. -/
theorem postRentals_unknown_vehicle (s : Store) (a : Nat) (req : BookingRequest)
    (now : Int) (hv : s.findVehicle req.vehicleId = none) :
    postRentals s a req now = (⟨400, Body.error "Vehicle not available"⟩, s) ∧
    postRentalsRoute s a ⟨IdParam.objectId req.vehicleId, req.startDate, req.endDate⟩ now =
      (⟨400, Body.error "Vehicle not available"⟩, s) ∧
    (∀ (s' : Store) (b : Nat) (req' : BookingRequest) (now' : Int) (v : Vehicle),
      s'.findVehicle req'.vehicleId = some v → v.available = false →
      (postRentals s' b req' now').1 = (postRentals s a req now).1) ∧
    ∀ raw : String,
      postRentalsRoute s a ⟨IdParam.malformed raw, req.startDate, req.endDate⟩ now =
        (⟨500, Body.error "Cast to ObjectId failed"⟩, s) := by
  have h1 : postRentals s a req now = (⟨400, Body.error "Vehicle not available"⟩, s) := by
    apply postRentals_rejected
    intro v hv'
    rw [hv] at hv'
    cases hv'
  refine ⟨h1, h1, ?_, fun _ => rfl⟩
  intro s' b req' now' v hv' ha'
  rw [h1, postRentals_rejected s' b req' now']
  intro w hw
  rw [hv'] at hw
  cases hw
  exact ha'

/-- Witness of the amended C10: id 99 in the seeded store. -/
theorem postRentals_unknown_vehicle_witness :
    seedStore.findVehicle 99 = none ∧
    (postRentals seedStore 7 ⟨99, june1, june4⟩ 0 =
        (⟨400, Body.error "Vehicle not available"⟩, seedStore) ∧
      postRentalsRoute seedStore 7 ⟨IdParam.objectId 99, june1, june4⟩ 0 =
        (⟨400, Body.error "Vehicle not available"⟩, seedStore) ∧
      (∀ (s' : Store) (b : Nat) (req' : BookingRequest) (now' : Int) (v : Vehicle),
        s'.findVehicle req'.vehicleId = some v → v.available = false →
        (postRentals s' b req' now').1 =
          (postRentals seedStore 7 ⟨99, june1, june4⟩ 0).1) ∧
      ∀ raw : String,
        postRentalsRoute seedStore 7 ⟨IdParam.malformed raw, june1, june4⟩ 0 =
          (⟨500, Body.error "Cast to ObjectId failed"⟩, seedStore)) :=
  ⟨by decide, postRentals_unknown_vehicle seedStore 7 ⟨99, june1, june4⟩ 0 (by decide)⟩

/-- The routes evaluated on ids: an `ObjectId` reaches the handler, a string
that is no `ObjectId` is answered 500 with the store as it was. -/
theorem route_examples :
    postRentalsRoute seedStore 7 ⟨IdParam.objectId 1, june1, june4⟩ 0 =
      postRentals seedStore 7 ⟨1, june1, june4⟩ 0 ∧
    postRentalsRoute seedStore 7 ⟨IdParam.malformed "99", june1, june4⟩ 0 =
      (⟨500, Body.error "Cast to ObjectId failed"⟩, seedStore) ∧
    patchRentalCancelRoute bookedStore 7 (IdParam.objectId 100) =
      patchRentalCancel bookedStore 7 100 ∧
    patchRentalCancelRoute bookedStore 7 (IdParam.malformed "555") =
      (⟨500, Body.error "Cast to ObjectId failed"⟩, bookedStore) := by
  decide

/-! ## Listing -/

theorem mem_sorted_filter (s : Store) (a : Nat) (r : Rental) :
    r ∈ (s.rentals.filter (fun r => r.userId == a)).insertionSort
        (fun x y => y.createdAt ≤ x.createdAt) ↔ r ∈ s.rentals ∧ r.userId = a := by
  rw [(List.perm_insertionSort _ _).mem_iff, List.mem_filter]
  simp

/-- C13: every rental that `GET /api/rentals/my-rentals` returns for account
`a` is a rental of the ledger with `userId = a`, every rental of the ledger with
`userId = a` is returned (as many entries as the ledger has for `a`), and no
entry belongs to another account. -/
theorem getMyRentals_exact (s : Store) (a : Nat) :
    (getMyRentals s a).1 = 200 ∧
    (∀ p ∈ (getMyRentals s a).2, p.userId = a ∧
      ∃ r ∈ s.rentals, r.userId = a ∧ p = s.populate r) ∧
    (∀ r ∈ s.rentals, r.userId = a → s.populate r ∈ (getMyRentals s a).2) ∧
    (getMyRentals s a).2.length = (s.rentals.filter (fun r => r.userId == a)).length ∧
    ∀ p ∈ (getMyRentals s a).2, ∀ b, b ≠ a → p.userId ≠ b := by
  have hmem : ∀ p ∈ (getMyRentals s a).2, p.userId = a ∧
      ∃ r ∈ s.rentals, r.userId = a ∧ p = s.populate r := by
    intro p hp
    obtain ⟨r, hr, rfl⟩ := List.mem_map.mp hp
    rw [mem_sorted_filter] at hr
    exact ⟨hr.2, r, hr.1, hr.2, rfl⟩
  refine ⟨rfl, hmem, ?_, ?_, ?_⟩
  · intro r hr ha
    exact List.mem_map_of_mem _ ((mem_sorted_filter s a r).mpr ⟨hr, ha⟩)
  · show (List.map _ _).length = _
    rw [List.length_map, List.length_insertionSort]
  · intro p hp b hb h
    exact hb (h.symm.trans (hmem p hp).1)

/-- The list of `GET /api/rentals/my-rentals` is ordered most recent first. -/
theorem getMyRentals_sorted (s : Store) (a : Nat) :
    ((getMyRentals s a).2.map (fun p => p.createdAt)).Sorted (fun x y => y ≤ x) := by
  haveI : IsTotal Rental (fun x y => y.createdAt ≤ x.createdAt) :=
    ⟨fun x y => le_total y.createdAt x.createdAt⟩
  haveI : IsTrans Rental (fun x y => y.createdAt ≤ x.createdAt) :=
    ⟨fun _ _ _ h1 h2 => le_trans h2 h1⟩
  have h := List.sorted_insertionSort (fun x y : Rental => y.createdAt ≤ x.createdAt)
    (s.rentals.filter (fun r => r.userId == a))
  show ((List.map _ _).map _).Sorted _
  rw [List.map_map]
  exact List.Pairwise.map _ (fun _ _ h => h) h


/-- The listing evaluated after `rebook`: account 7 sees its cancelled rental
100 with the vehicle document embedded, account 8 sees rental 101 only. -/
theorem getMyRentals_example :
    (getMyRentals rebookedStore 7).2.map (fun p => (p._id, p.userId, p.status)) =
      [(100, 7, Status.cancelled)] ∧
    (getMyRentals rebookedStore 8).2.map
        (fun p => (p._id, p.userId, p.vehicleId.map (fun v => v.name))) =
      [(101, 8, some "Tesla Model 3")] := by
  decide

/-! ## Booking followed by cancellation -/

theorem updateOne_append_of_forall_false {α : Type} (p : α → Bool) (f : α → α)
    (l l' : List α) (h : ∀ x ∈ l, p x = false) :
    updateOne p f (l ++ l') = l ++ updateOne p f l' := by
  induction l with
  | nil => rfl
  | cons x xs ih =>
    have hx := h x (List.mem_cons_self _ _)
    have hxs : ∀ y ∈ xs, p y = false := fun y hy => h y (List.mem_cons_of_mem _ hy)
    simp [updateOne, hx, ih hxs]

theorem updateOne_updateOne_undo {α : Type} (p : α → Bool) (f g : α → α)
    (l : List α) (x : α) (hfind : l.find? p = some x) (hp : p (f x) = true)
    (hgf : g (f x) = x) : updateOne p g (updateOne p f l) = l := by
  induction l with
  | nil => simp at hfind
  | cons y ys ih =>
    rw [List.find?_cons] at hfind
    by_cases hy : p y = true
    · rw [hy] at hfind
      simp only [Option.some.injEq] at hfind
      subst hfind
      simp [updateOne, hy, hp, hgf]
    · simp only [Bool.not_eq_true] at hy
      rw [hy] at hfind
      simp [updateOne, hy, ih hfind]

theorem find?_append_of_forall_false {α : Type} (p : α → Bool) (l l' : List α)
    (h : ∀ x ∈ l, p x = false) : (l ++ l').find? p = l'.find? p := by
  induction l with
  | nil => rfl
  | cons x xs ih =>
    have hx := h x (List.mem_cons_self _ _)
    have hxs : ∀ y ∈ xs, p y = false := fun y hy => h y (List.mem_cons_of_mem _ hy)
    simp [List.find?_cons, hx, ih hxs]

/-- C14: booking an available vehicle `v` as account `a` and then cancelling
the returned rental as `a` gives back the catalog of before the booking and a
ledger that is the old ledger plus exactly one rental, in status `cancelled`
(the store's `nextId` being fresh, as `ObjectId`s are). -/
theorem book_then_cancel (s : Store) (a : Nat) (req : BookingRequest) (now : Int)
    (vehicle : Vehicle) (hv : s.findVehicle req.vehicleId = some vehicle)
    (ha : vehicle.available = true) (_hle : req.startDate ≤ req.endDate)
    (hfresh : ∀ r ∈ s.rentals, r._id ≠ s.nextId) :
    ∃ rental : Rental,
      (postRentals s a req now).1 = ⟨201, Body.rental rental⟩ ∧
      rental.status = Status.pending ∧
      (postRentals s a req now).2.findVehicle req.vehicleId =
        some { vehicle with available := false } ∧
      (patchRentalCancel (postRentals s a req now).2 a rental._id).1 =
        ⟨200, Body.rental { rental with status := Status.cancelled }⟩ ∧
      (patchRentalCancel (postRentals s a req now).2 a rental._id).2.vehicles =
        s.vehicles ∧
      (patchRentalCancel (postRentals s a req now).2 a rental._id).2.rentals =
        s.rentals ++ [{ rental with status := Status.cancelled }] := by
  have hid := findVehicle_id s _ _ hv
  have hnone : ∀ x ∈ s.rentals, (x._id == s.nextId) = false := by
    intro x hx
    simpa using hfresh x hx
  have key : ∀ (r : Rental), r._id = s.nextId → r.userId = a →
      r.vehicleId = req.vehicleId →
      (patchRentalCancel ((s.insertRental r).setAvailable req.vehicleId false) a r._id) =
        (⟨200, Body.rental { r with status := Status.cancelled }⟩,
          { vehicles := s.vehicles,
            rentals := s.rentals ++ [{ r with status := Status.cancelled }],
            nextId := s.nextId + 1 }) := by
    intro r hr hu hrv
    have hfind : ((s.insertRental r).setAvailable req.vehicleId false).findOwnedRental
        r._id a = some r := by
      show (s.rentals ++ [r]).find? (fun x => x._id == r._id && x.userId == a) = some r
      rw [find?_append_of_forall_false]
      · simp [hu]
      · intro x hx
        have := hnone x hx
        rw [hr]
        simp [this]
    rw [patchRentalCancel_ok _ a r._id r hfind]
    have hveh : updateOne (fun v : Vehicle => v._id == r.vehicleId)
        (fun v => { v with available := true })
        (updateOne (fun v : Vehicle => v._id == req.vehicleId)
          (fun v => { v with available := false }) s.vehicles) = s.vehicles := by
      rw [hrv]
      refine updateOne_updateOne_undo _ _ _ s.vehicles vehicle hv ?_ ?_
      · simp [hid]
      · cases vehicle
        simp only at ha
        subst ha
        rfl
    have hren : updateOne (fun x : Rental => x._id == r._id)
        (fun x => { x with status := Status.cancelled }) (s.rentals ++ [r]) =
        s.rentals ++ [{ r with status := Status.cancelled }] := by
      rw [updateOne_append_of_forall_false]
      · simp [updateOne]
      · intro x hx
        rw [hr]
        exact hnone x hx
    show (_, ({ vehicles := _, rentals := _, nextId := _ } : Store)) = _
    simp only [Store.setAvailable, Store.setStatus, Store.insertRental, hveh, hren]
  rw [postRentals_ok s a req now vehicle hv ha]
  refine ⟨_, rfl, rfl, ?_, ?_⟩
  · show (Store.setAvailable _ _ _).findVehicle _ = _
    rw [findVehicle_setAvailable_same]
    show Option.map _ (s.findVehicle req.vehicleId) = _
    rw [hv]
    rfl
  · show (patchRentalCancel ((s.insertRental _).setAvailable req.vehicleId false) a _).1 = _ ∧
      (patchRentalCancel ((s.insertRental _).setAvailable req.vehicleId false) a _).2.vehicles
        = _ ∧
      (patchRentalCancel ((s.insertRental _).setAvailable req.vehicleId false) a _).2.rentals
        = _
    rw [key _ rfl rfl rfl]
    exact ⟨rfl, rfl, rfl⟩


/-- Witness of C14: the vehicle priced 89 per day, 2023-06-01 to 2023-06-04, on
the seeded store. -/
theorem book_then_cancel_witness :
    (seedStore.findVehicle 1 = some tesla ∧ tesla.available = true ∧ june1 ≤ june4 ∧
      ∀ r ∈ seedStore.rentals, r._id ≠ seedStore.nextId) ∧
    ∃ rental : Rental,
      (postRentals seedStore 7 ⟨1, june1, june4⟩ 0).1 = ⟨201, Body.rental rental⟩ ∧
      rental.status = Status.pending ∧
      (postRentals seedStore 7 ⟨1, june1, june4⟩ 0).2.findVehicle 1 =
        some { tesla with available := false } ∧
      (patchRentalCancel (postRentals seedStore 7 ⟨1, june1, june4⟩ 0).2 7 rental._id).1 =
        ⟨200, Body.rental { rental with status := Status.cancelled }⟩ ∧
      (patchRentalCancel (postRentals seedStore 7 ⟨1, june1, june4⟩ 0).2 7 rental._id).2.vehicles
        = seedStore.vehicles ∧
      (patchRentalCancel (postRentals seedStore 7 ⟨1, june1, june4⟩ 0).2 7 rental._id).2.rentals
        = seedStore.rentals ++ [{ rental with status := Status.cancelled }] :=
  ⟨by decide,
    book_then_cancel seedStore 7 ⟨1, june1, june4⟩ 0 tesla (by decide) (by decide)
      (by decide) (by decide)⟩

/-- The scenario of C14 evaluated: after the booking the price is 267, the
status `pending` and the vehicle unavailable; after the cancellation the
status is `cancelled` and the vehicle available. -/
theorem scenario_book_then_cancel :
    (postRentals seedStore 7 ⟨1, june1, june4⟩ 0).1 = ⟨201, Body.rental firstRental⟩ ∧
    firstRental.totalPrice = 267 ∧ firstRental.status = Status.pending ∧
    (bookedStore.findVehicle 1).map (fun v => v.available) = some false ∧
    (patchRentalCancel bookedStore 7 100).1 =
      ⟨200, Body.rental { firstRental with status := Status.cancelled }⟩ ∧
    ((patchRentalCancel bookedStore 7 100).2.findVehicle 1).map (fun v => v.available)
      = some true ∧
    (patchRentalCancel bookedStore 7 100).2.vehicles = seedStore.vehicles := by
  decide

/-! ## Frame conditions -/

theorem updateOne_split {α : Type} (p : α → Bool) (f : α → α) (l : List α) :
    updateOne p f l = l ∨
      ∃ pre x post, l = pre ++ x :: post ∧ p x = true ∧
        updateOne p f l = pre ++ f x :: post := by
  induction l with
  | nil => exact Or.inl rfl
  | cons y ys ih =>
    by_cases hy : p y = true
    · exact Or.inr ⟨[], y, ys, rfl, hy, by simp [updateOne, hy]⟩
    · rcases ih with h | ⟨pre, x, post, h1, h2, h3⟩
      · exact Or.inl (by simp [updateOne, hy, h])
      · exact Or.inr ⟨y :: pre, x, post, by simp [h1], h2, by simp [updateOne, hy, h3]⟩

/-- C15: neither handler removes a rental, and the only field of an existing
rental that changes is `status`.  Booking appends at most one rental to the
ledger and leaves the old entries as they were.  Cancelling leaves the ledger
as it was, or replaces one rental with the given id by the same rental in
status `cancelled` (same `userId`, `vehicleId`, dates, `totalPrice` and
`createdAt`) and keeps every other entry. -/
theorem ledger_frame (s : Store) (a : Nat) :
    (∀ (req : BookingRequest) (now : Int),
      ∃ added : List Rental, added.length ≤ 1 ∧
        (postRentals s a req now).2.rentals = s.rentals ++ added) ∧
    (∀ id : Nat,
      (patchRentalCancel s a id).2.rentals = s.rentals ∨
      ∃ pre x post, s.rentals = pre ++ x :: post ∧ x._id = id ∧
        (patchRentalCancel s a id).2.rentals =
          pre ++ { x with status := Status.cancelled } :: post) ∧
    (∀ (id : Nat) (r : Rental), s.findRental id = some r →
      ∃ r', (patchRentalCancel s a id).2.findRental id = some r' ∧
        r'._id = r._id ∧ r'.userId = r.userId ∧ r'.vehicleId = r.vehicleId ∧
        r'.startDate = r.startDate ∧ r'.endDate = r.endDate ∧
        r'.totalPrice = r.totalPrice ∧ r'.createdAt = r.createdAt) := by
  refine ⟨?_, ?_, ?_⟩
  · intro req now
    cases hv : s.findVehicle req.vehicleId with
    | none =>
      rw [postRentals_rejected s a req now (by intro v hv'; rw [hv] at hv'; cases hv')]
      exact ⟨[], by simp, by simp⟩
    | some vehicle =>
      cases ha : vehicle.available with
      | false =>
        rw [postRentals_rejected s a req now
          (by intro v hv'; rw [hv] at hv'; cases hv'; exact ha)]
        exact ⟨[], by simp, by simp⟩
      | true =>
        rw [postRentals_ok s a req now vehicle hv ha]
        exact ⟨[_], by simp, rfl⟩
  · intro id
    cases hf : s.findOwnedRental id a with
    | none =>
      left
      unfold patchRentalCancel
      rw [hf]
    | some r =>
      rw [patchRentalCancel_ok s a id r hf]
      have hid := (findOwnedRental_mem s id a r hf).2.1
      rcases updateOne_split (fun x : Rental => x._id == r._id)
          (fun x => { x with status := Status.cancelled }) s.rentals with h | h
      · left
        exact h
      · right
        obtain ⟨pre, x, post, h1, h2, h3⟩ := h
        refine ⟨pre, x, post, h1, ?_, h3⟩
        simp only [beq_iff_eq] at h2
        rw [h2, hid]
  · intro id r hr
    cases hf : s.findOwnedRental id a with
    | none =>
      refine ⟨r, ?_, rfl, rfl, rfl, rfl, rfl, rfl, rfl⟩
      unfold patchRentalCancel
      rw [hf]
      exact hr
    | some r0 =>
      rw [patchRentalCancel_ok s a id r0 hf]
      have hid := (findOwnedRental_mem s id a r0 hf).2.1
      refine ⟨{ r with status := Status.cancelled }, ?_, rfl, rfl, rfl, rfl, rfl, rfl, rfl⟩
      show (s.setStatus r0._id Status.cancelled).findRental id = _
      rw [hid, findRental_setStatus_same, hr]
      rfl

/-! ## One booking blocks the vehicle -/

theorem blocked_after_book (s : Store) (r : Rental) (vehicle : Vehicle)
    (hv : s.findVehicle r.vehicleId = some vehicle) :
    ((s.insertRental r).setAvailable r.vehicleId false).blocked r.vehicleId := by
  intro w hw
  rw [findVehicle_setAvailable_same] at hw
  have : (s.insertRental r).findVehicle r.vehicleId = some vehicle := hv
  rw [this] at hw
  simp only [Option.map_some', Option.some.injEq] at hw
  rw [← hw]

/-- What one booking request does to the rentals of vehicle `v`. -/
theorem book_step_cases (s : Store) (v a : Nat) (req : BookingRequest) (now : Int) :
    (postRentals s a req now).2 = s ∨
    (¬ s.blocked v ∧ (postRentals s a req now).2.blocked v ∧
      (rentalsOf v (postRentals s a req now).2.rentals).length =
        (rentalsOf v s.rentals).length + 1) ∨
    ((s.blocked v → (postRentals s a req now).2.blocked v) ∧
      rentalsOf v (postRentals s a req now).2.rentals = rentalsOf v s.rentals) := by
  cases hv : s.findVehicle req.vehicleId with
  | none =>
    left
    rw [postRentals_rejected s a req now (by intro w hw; rw [hv] at hw; cases hw)]
  | some vehicle =>
    cases ha : vehicle.available with
    | false =>
      left
      rw [postRentals_rejected s a req now
        (by intro w hw; rw [hv] at hw; cases hw; exact ha)]
    | true =>
      right
      rw [postRentals_ok s a req now vehicle hv ha]
      by_cases hreq : req.vehicleId = v
      · left
        subst hreq
        refine ⟨?_, ?_, ?_⟩
        · intro hb
          have := hb vehicle hv
          rw [ha] at this
          cases this
        · exact blocked_after_book s
            { _id := s.nextId, userId := a, vehicleId := req.vehicleId,
              startDate := req.startDate, endDate := req.endDate,
              totalPrice := jsMul (rentalDays req.startDate req.endDate) vehicle.pricePerDay,
              status := Status.pending, createdAt := now } vehicle hv
        · show (rentalsOf _ (s.rentals ++ [_])).length = _
          simp [rentalsOf, List.filter_append]
      · right
        refine ⟨?_, ?_⟩
        · intro hb w hw
          apply hb w
          rw [← hw]
          symm
          exact findVehicle_setAvailable_other _ _ _ _ (Ne.symm hreq)
        · show rentalsOf _ (s.rentals ++ [_]) = _
          simp [rentalsOf, List.filter_append, hreq]

/-- A cancellation that does not target a rental of `v` keeps `v` blocked. -/
theorem cancel_keeps_blocked (s : Store) (v a id : Nat) (hb : s.blocked v)
    (hc : (match s.findOwnedRental id a with
      | none => true
      | some r => r.vehicleId != v) = true) :
    (patchRentalCancel s a id).2.blocked v := by
  cases hf : s.findOwnedRental id a with
  | none =>
    unfold patchRentalCancel
    rw [hf]
    exact hb
  | some r =>
    rw [hf] at hc
    simp only [bne_iff_ne, ne_eq] at hc
    rw [patchRentalCancel_ok s a id r hf]
    intro w hw
    apply hb w
    rw [← hw]
    symm
    exact findVehicle_setAvailable_other _ _ _ _ (Ne.symm hc)

theorem run_keeps_blocked (v : Nat) (ops : List Op) (s : Store) (hb : s.blocked v)
    (hops : noCancelOf v s ops = true) : (run s ops).blocked v := by
  induction ops generalizing s with
  | nil => exact hb
  | cons op ops ih =>
    cases op with
    | book a req now =>
      simp only [noCancelOf] at hops
      apply ih _ _ hops
      show (postRentals s a req now).2.blocked v
      rcases book_step_cases s v a req now with h | h | h
      · rw [h]; exact hb
      · exact absurd hb h.1
      · exact h.1 hb
    | cancel a id =>
      simp only [noCancelOf, Bool.and_eq_true] at hops
      apply ih _ _ hops.2
      exact cancel_keeps_blocked s v a id hb hops.1

theorem run_books_count (v : Nat) (ops : List Op) (s : Store)
    (hops : ∀ op ∈ ops, op.isBook = true) :
    (s.blocked v → rentalsOf v (run s ops).rentals = rentalsOf v s.rentals) ∧
    (rentalsOf v (run s ops).rentals).length ≤ (rentalsOf v s.rentals).length + 1 := by
  induction ops generalizing s with
  | nil => exact ⟨fun _ => rfl, Nat.le_succ _⟩
  | cons op ops ih =>
    have hop := hops op (List.mem_cons_self _ _)
    have hrest : ∀ o ∈ ops, o.isBook = true := fun o ho => hops o (List.mem_cons_of_mem _ ho)
    cases op with
    | cancel a id => cases hop
    | book a req now =>
      have ih' := ih (postRentals s a req now).2 hrest
      show (s.blocked v → rentalsOf v (run (postRentals s a req now).2 ops).rentals = _) ∧
        (rentalsOf v (run (postRentals s a req now).2 ops).rentals).length ≤ _
      rcases book_step_cases s v a req now with h | h | h
      · rw [h] at ih' ⊢
        exact ih'
      · refine ⟨fun hb => absurd hb h.1, ?_⟩
        rw [ih'.1 h.2.1, h.2.2]
      · refine ⟨fun hb => ?_, ?_⟩
        · rw [ih'.1 (h.1 hb), h.2]
        · rw [← h.2]
          exact ih'.2

/-- C17: after a successful booking of an available vehicle `v`, and after any
further requests none of which is a cancellation that targets a rental of `v`,
every booking of `v` (any account, any dates) answers 400
`Vehicle not available` and leaves the store as it was; and a sequence that
consists of bookings only adds at most one rental per vehicle to the ledger. -/
theorem booked_vehicle_stays_blocked (s : Store) (a : Nat) (req : BookingRequest)
    (now : Int) (vehicle : Vehicle) (hv : s.findVehicle req.vehicleId = some vehicle)
    (ha : vehicle.available = true) (ops : List Op)
    (hops : noCancelOf req.vehicleId (postRentals s a req now).2 ops = true) :
    (postRentals s a req now).1.status = 201 ∧
    (∀ (b : Nat) (req' : BookingRequest) (now' : Int), req'.vehicleId = req.vehicleId →
      postRentals (run (postRentals s a req now).2 ops) b req' now' =
        (⟨400, Body.error "Vehicle not available"⟩, run (postRentals s a req now).2 ops)) ∧
    (∀ (t : Store) (books : List Op) (v : Nat), (∀ op ∈ books, op.isBook = true) →
      (rentalsOf v (run t books).rentals).length ≤ (rentalsOf v t.rentals).length + 1) := by
  have hb : (postRentals s a req now).2.blocked req.vehicleId := by
    rw [postRentals_ok s a req now vehicle hv ha]
    exact blocked_after_book s
      { _id := s.nextId, userId := a, vehicleId := req.vehicleId,
        startDate := req.startDate, endDate := req.endDate,
        totalPrice := jsMul (rentalDays req.startDate req.endDate) vehicle.pricePerDay,
        status := Status.pending, createdAt := now } vehicle hv
  refine ⟨?_, ?_, ?_⟩
  · rw [postRentals_ok s a req now vehicle hv ha]
  · intro b req' now' hreq
    apply postRentals_rejected
    rw [hreq]
    exact run_keeps_blocked _ ops _ hb hops
  · intro t books v hbooks
    exact (run_books_count v books t hbooks).2


/-- Witness of C17: vehicle 1 is booked by account 7 on the seeded store and
`otherTraffic` follows. -/
theorem booked_vehicle_stays_blocked_witness :
    (seedStore.findVehicle 1 = some tesla ∧ tesla.available = true ∧
      noCancelOf 1 (postRentals seedStore 7 ⟨1, june1, june4⟩ 0).2 otherTraffic = true) ∧
    ((postRentals seedStore 7 ⟨1, june1, june4⟩ 0).1.status = 201 ∧
    (∀ (b : Nat) (req' : BookingRequest) (now' : Int), req'.vehicleId = 1 →
      postRentals (run (postRentals seedStore 7 ⟨1, june1, june4⟩ 0).2 otherTraffic)
          b req' now' =
        (⟨400, Body.error "Vehicle not available"⟩,
          run (postRentals seedStore 7 ⟨1, june1, june4⟩ 0).2 otherTraffic)) ∧
    (∀ (t : Store) (books : List Op) (v : Nat), (∀ op ∈ books, op.isBook = true) →
      (rentalsOf v (run t books).rentals).length ≤ (rentalsOf v t.rentals).length + 1)) :=
  ⟨by decide,
    booked_vehicle_stays_blocked seedStore 7 ⟨1, june1, june4⟩ 0 tesla (by decide)
      (by decide) otherTraffic (by decide)⟩

/-- The traffic of the witness evaluated: the ledger ends with one rental on
vehicle 1 and one on vehicle 2, and the request of account 9 created none. -/
theorem otherTraffic_example :
    (run bookedStore otherTraffic).rentals.map (fun r => (r._id, r.vehicleId, r.status)) =
      [(100, 1, Status.pending), (101, 2, Status.cancelled)] := by
  decide

/-! ## Client preview and server price -/

theorem calculateDays_eq (start stop : ISODate) :
    calculateDays ⟨some start, some stop⟩ = max 0 (rentalDays start stop) := by
  show (if rentalDays start stop > 0 then rentalDays start stop else 0) = _
  by_cases h : rentalDays start stop > 0
  · rw [if_pos h]; omega
  · rw [if_neg h]; omega

/-- Counterexample to C18: `freeVehicle` is priced 0 and the end date
2023-06-01 is before the start date 2023-06-04; the preview total and the
price that the server stores are both 0, so the two do not differ and no
negative price is stored. -/
theorem preview_equal_at_price_zero :
    ¬ june4 ≤ june1 ∧
    freeStore.findVehicle 4 = some freeVehicle ∧
    calculateDays ⟨some june4, some june1⟩ = 0 ∧
    previewTotal ⟨some june4, some june1⟩ freeVehicle = 0 ∧
    (postRentals freeStore 7 (handleBookingBody freeVehicle june4 june1) 0).1.status = 201 ∧
    (postRentals freeStore 7 (handleBookingBody freeVehicle june4 june1) 0).2.rentals.map
        (fun r => r.totalPrice) = [0] := by
  decide

/-- C18 as amended: for filled date inputs the client's `calculateDays()` is
`max(0, d)` for the day count `d` of the server; the two day counts differ
exactly when the end date is before the start date, where the client shows 0
days; whenever the preview is shown, the displayed total is the `totalPrice`
that the server stores for the posted booking; and for a positive price the
displayed total and the server's price differ exactly when the end date is
before the start date, where the server's price is negative. -/
theorem preview_agrees_with_server (start stop : ISODate) :
    calculateDays ⟨some start, some stop⟩ = max 0 (rentalDays start stop) ∧
    (calculateDays ⟨some start, some stop⟩ ≠ rentalDays start stop ↔ ¬ start ≤ stop) ∧
    (¬ start ≤ stop → calculateDays ⟨some start, some stop⟩ = 0) ∧
    (∀ (s : Store) (a : Nat) (now : Int) (selected : Vehicle),
      s.findVehicle selected._id = some selected → selected.available = true →
      previewShown ⟨some start, some stop⟩ = true →
      ∃ rental : Rental,
        (postRentals s a (handleBookingBody selected start stop) now).1 =
          ⟨201, Body.rental rental⟩ ∧
        (postRentals s a (handleBookingBody selected start stop) now).2.rentals =
          s.rentals ++ [rental] ∧
        rental.totalPrice = previewTotal ⟨some start, some stop⟩ selected) ∧
    (∀ (s : Store) (a : Nat) (now : Int) (selected : Vehicle),
      s.findVehicle selected._id = some selected → selected.available = true →
      0 < selected.pricePerDay →
      ∃ rental : Rental,
        (postRentals s a (handleBookingBody selected start stop) now).1 =
          ⟨201, Body.rental rental⟩ ∧
        (previewTotal ⟨some start, some stop⟩ selected ≠ rental.totalPrice ↔
          ¬ start ≤ stop) ∧
        (¬ start ≤ stop → rental.totalPrice < 0)) := by
  have hc := calculateDays_eq start stop
  have hd := rentalDays_eq start stop
  have hle := le_iff_epochDay_le start stop
  have hneg : ¬ start ≤ stop ↔ rentalDays start stop < 0 := by
    rw [hle, hd]; omega
  refine ⟨hc, ?_, ?_, ?_, ?_⟩
  · rw [hc, hneg]; omega
  · intro h
    rw [hc]
    have := hneg.mp h
    omega
  · intro s a now selected hv ha hshown
    have hpos : calculateDays ⟨some start, some stop⟩ > 0 := by
      simpa [previewShown] using hshown
    rw [postRentals_ok s a (handleBookingBody selected start stop) now selected hv ha]
    refine ⟨_, rfl, rfl, ?_⟩
    show jsMul (rentalDays start stop) selected.pricePerDay = previewTotal _ _
    unfold previewTotal
    rw [hc] at hpos ⊢
    have : max 0 (rentalDays start stop) = rentalDays start stop := by omega
    rw [this]
  · intro s a now selected hv ha hp
    rw [postRentals_ok s a (handleBookingBody selected start stop) now selected hv ha]
    refine ⟨_, rfl, ?_, ?_⟩
    · show previewTotal _ _ ≠ jsMul (rentalDays start stop) selected.pricePerDay ↔ _
      unfold previewTotal
      rw [hc, hneg]
      constructor
      · intro hne
        by_contra hnn
        apply hne
        have : max 0 (rentalDays start stop) = rentalDays start stop := by omega
        rw [this]
      · intro hlt heq
        have h0 : max 0 (rentalDays start stop) = 0 := by omega
        rw [h0, jsMul_zero_left] at heq
        have := toNumber_neg _ (Int.mul_neg_of_neg_of_pos hlt hp)
        unfold jsMul at heq
        omega
    · intro hlt
      show jsMul (rentalDays start stop) selected.pricePerDay < 0
      exact toNumber_neg _ (Int.mul_neg_of_neg_of_pos (hneg.mp hlt) hp)

/-- The preview evaluated: three days and 267 for 2023-06-01 to 2023-06-04 on
the vehicle priced 89, as the server stores; 0 days and no preview for the
reversed dates, where the server stores -267; 0 days for an empty input. -/
theorem preview_examples :
    calculateDays ⟨some june1, some june4⟩ = 3 ∧
    previewTotal ⟨some june1, some june4⟩ tesla = 267 ∧
    calculateDays ⟨some june4, some june1⟩ = 0 ∧
    previewShown ⟨some june4, some june1⟩ = false ∧
    rentalDays june4 june1 * tesla.pricePerDay = -267 ∧
    calculateDays ⟨none, some june1⟩ = 0 := by
  decide

/-! ## Storage failures -/

/-- Without failures the fault-aware booking handler is `postRentals`. -/
theorem postRentalsWithFaults_none (s : Store) (a : Nat) (req : BookingRequest) (now : Int) :
    postRentalsWithFaults ⟨none, none, none⟩ s a req now = postRentals s a req now := by
  unfold postRentalsWithFaults postRentals
  rfl

/-- Without failures the fault-aware cancel handler is `patchRentalCancel`. -/
theorem patchRentalCancelWithFaults_none (s : Store) (a id : Nat) :
    patchRentalCancelWithFaults ⟨none, none, none⟩ s a id = patchRentalCancel s a id := by
  unfold patchRentalCancelWithFaults patchRentalCancel
  rfl

/-- Counterexample to C11: the vehicle write of a booking on the seeded store
fails after the rental is saved; the store that results is not the store of
before, it holds the `pending` rental 100 on vehicle 1, which is still flagged
available.  A failed vehicle write of the cancellation of rental 100 in
`bookedStore` leaves that rental `cancelled` and vehicle 1 unavailable. -/
theorem half_done_store_visible :
    (postRentalsWithFaults ⟨none, none, some "connection lost"⟩ seedStore 7
        ⟨1, june1, june4⟩ 0).2 ≠ seedStore ∧
    (postRentalsWithFaults ⟨none, none, some "connection lost"⟩ seedStore 7
        ⟨1, june1, june4⟩ 0).2.rentals = [firstRental] ∧
    ((postRentalsWithFaults ⟨none, none, some "connection lost"⟩ seedStore 7
        ⟨1, june1, june4⟩ 0).2.findVehicle 1).map (fun v => v.available) = some true ∧
    (postRentalsWithFaults ⟨none, none, some "connection lost"⟩ seedStore 7
        ⟨1, june1, june4⟩ 0).2.halfDone = true ∧
    seedStore.halfDone = false ∧ bookedStore.halfDone = false ∧
    (patchRentalCancelWithFaults ⟨none, none, some "connection lost"⟩ bookedStore 7 100).2
      ≠ bookedStore ∧
    ((patchRentalCancelWithFaults ⟨none, none, some "connection lost"⟩ bookedStore 7
        100).2.findRental 100).map (fun r => r.status) = some Status.cancelled ∧
    ((patchRentalCancelWithFaults ⟨none, none, some "connection lost"⟩ bookedStore 7
        100).2.findVehicle 1).map (fun v => v.available) = some false ∧
    (patchRentalCancelWithFaults ⟨none, none, some "connection lost"⟩ bookedStore 7
        100).2.halfDone = true := by
  decide


/-- C11 as amended: the two writes of a handler are not one atomic unit.  When
the vehicle write of a booking fails after the rental is saved, the handler
answers 500 and the store is the store of before plus the new `pending`
rental, with the vehicle still flagged available; when the vehicle write of a
cancellation fails, the handler answers 500 and the rental is `cancelled` with
every vehicle as before.  When the rental write itself fails, the handler
answers 500 and the store is the store of before. -/
theorem vehicle_write_failure (s : Store) (a : Nat) (req : BookingRequest) (now : Int)
    (vehicle : Vehicle) (msg : String) (hv : s.findVehicle req.vehicleId = some vehicle)
    (ha : vehicle.available = true) (t : Store) (b id : Nat) (r : Rental)
    (hr : t.findOwnedRental id b = some r) :
    (∃ rental : Rental,
      postRentalsWithFaults ⟨none, none, some msg⟩ s a req now =
        (⟨500, Body.error msg⟩, s.insertRental rental) ∧
      rental.status = Status.pending ∧ rental.vehicleId = req.vehicleId ∧
      (s.insertRental rental).rentals = s.rentals ++ [rental] ∧
      (s.insertRental rental).vehicles = s.vehicles ∧
      (s.insertRental rental).findVehicle req.vehicleId = some vehicle) ∧
    (patchRentalCancelWithFaults ⟨none, none, some msg⟩ t b id =
        (⟨500, Body.error msg⟩, t.setStatus r._id Status.cancelled) ∧
      (t.setStatus r._id Status.cancelled).vehicles = t.vehicles ∧
      (t.setStatus r._id Status.cancelled).findRental r._id =
        (t.findRental r._id).map (fun x => { x with status := Status.cancelled }) ∧
      ∃ x, (t.setStatus r._id Status.cancelled).findRental r._id = some x ∧
        x.status = Status.cancelled) ∧
    postRentalsWithFaults ⟨none, some msg, none⟩ s a req now = (⟨500, Body.error msg⟩, s) ∧
    patchRentalCancelWithFaults ⟨none, some msg, none⟩ t b id =
      (⟨500, Body.error msg⟩, t) := by
  refine ⟨?_, ?_, ?_, ?_⟩
  · refine ⟨
      { _id := s.nextId, userId := a, vehicleId := req.vehicleId,
        startDate := req.startDate, endDate := req.endDate,
        totalPrice := jsMul (rentalDays req.startDate req.endDate) vehicle.pricePerDay,
        status := Status.pending, createdAt := now }, ?_, rfl, rfl, rfl, rfl, hv⟩
    unfold postRentalsWithFaults
    simp only [hv, ha]
    rfl
  · have hmap := findRental_setStatus_same t r._id Status.cancelled
    refine ⟨?_, rfl, hmap, ?_⟩
    · unfold patchRentalCancelWithFaults
      simp only [hr]
    · obtain ⟨hmem, -, -⟩ := findOwnedRental_mem t id b r hr
      cases hx : t.findRental r._id with
      | none =>
        have := List.find?_eq_none.mp hx r hmem
        simp at this
      | some x =>
        rw [hmap, hx]
        exact ⟨_, rfl, rfl⟩
  · unfold postRentalsWithFaults
    simp only [hv, ha]
    rfl
  · unfold patchRentalCancelWithFaults
    simp only [hr]

/-- Witness of the amended C11: a booking on the seeded store and the
cancellation of rental 100 in `bookedStore`, each with a failing vehicle
write. -/
theorem vehicle_write_failure_witness :
    (seedStore.findVehicle 1 = some tesla ∧ tesla.available = true ∧
      bookedStore.findOwnedRental 100 7 = some firstRental) ∧
    ((∃ rental : Rental,
      postRentalsWithFaults ⟨none, none, some "connection lost"⟩ seedStore 7
          ⟨1, june1, june4⟩ 0 =
        (⟨500, Body.error "connection lost"⟩, seedStore.insertRental rental) ∧
      rental.status = Status.pending ∧ rental.vehicleId = 1 ∧
      (seedStore.insertRental rental).rentals = seedStore.rentals ++ [rental] ∧
      (seedStore.insertRental rental).vehicles = seedStore.vehicles ∧
      (seedStore.insertRental rental).findVehicle 1 = some tesla) ∧
    (patchRentalCancelWithFaults ⟨none, none, some "connection lost"⟩ bookedStore 7 100 =
        (⟨500, Body.error "connection lost"⟩,
          bookedStore.setStatus firstRental._id Status.cancelled) ∧
      (bookedStore.setStatus firstRental._id Status.cancelled).vehicles =
        bookedStore.vehicles ∧
      (bookedStore.setStatus firstRental._id Status.cancelled).findRental firstRental._id =
        (bookedStore.findRental firstRental._id).map
          (fun x => { x with status := Status.cancelled }) ∧
      ∃ x, (bookedStore.setStatus firstRental._id Status.cancelled).findRental
          firstRental._id = some x ∧ x.status = Status.cancelled) ∧
    postRentalsWithFaults ⟨none, some "connection lost", none⟩ seedStore 7
        ⟨1, june1, june4⟩ 0 = (⟨500, Body.error "connection lost"⟩, seedStore) ∧
    patchRentalCancelWithFaults ⟨none, some "connection lost", none⟩ bookedStore 7 100 =
      (⟨500, Body.error "connection lost"⟩, bookedStore)) :=
  ⟨by decide,
    vehicle_write_failure seedStore 7 ⟨1, june1, june4⟩ 0 tesla "connection lost"
      (by decide) (by decide) bookedStore 7 100 firstRental (by decide)⟩

/-! ## Interleaved bookings -/

theorem mem_schedules (k : Nat) (l : List Bool) : l ∈ schedules k ↔ l.length = k := by
  induction k generalizing l with
  | zero => simp [schedules]
  | succ k ih =>
    cases l with
    | nil => simp [schedules]
    | cons b t =>
      cases b <;> simp [schedules, ih]

theorem count_false_add_count_true (l : List Bool) :
    l.count false + l.count true = l.length := by
  induction l with
  | nil => rfl
  | cons b t ih =>
    cases b <;> simp [List.count_cons] <;> omega

/-- The list `merges n m` holds exactly the schedules with `n` steps of the
first run and `m` steps of the second. -/
theorem mem_merges (n m : Nat) (l : List Bool) :
    l ∈ merges n m ↔ l.count false = n ∧ l.count true = m := by
  unfold merges
  rw [List.mem_filter, mem_schedules]
  have := count_false_add_count_true l
  simp only [Bool.and_eq_true, beq_iff_eq]
  constructor
  · exact fun h => h.2
  · intro h
    exact ⟨by omega, h⟩

theorem holds_id (s : Store) (v : Nat) (vehicle : Vehicle) (h : s.holds v vehicle) :
    vehicle._id = v := by
  obtain ⟨flag, hf⟩ := h
  exact findVehicle_id s v { vehicle with available := flag } hf

/-- One step of one run, seen on the control state. -/
theorem bookingStep_control (c : Call) (v : Nat) (vehicle : Vehicle) (run : BookingRun)
    (t : Store) (hc : c.req.vehicleId = v) (ht : t.holds v vehicle)
    (hrun : run.Good v) :
    (bookingStep c run t).1.Good v ∧ (bookingStep c run t).2.holds v vehicle ∧
    (bookingStep c run t).1.phase =
      (run.phase.step ((t.findVehicle v).any (fun w => w.available))).1 ∧
    ((bookingStep c run t).2.findVehicle v).any (fun w => w.available) =
      (run.phase.step ((t.findVehicle v).any (fun w => w.available))).2 := by
  have hid := holds_id t v vehicle ht
  obtain ⟨flag, hf⟩ := ht
  cases run with
  | start =>
    cases flag with
    | false =>
      have : bookingStep c BookingRun.start t =
          (BookingRun.done ⟨400, Body.error "Vehicle not available"⟩, t) := by
        simp only [bookingStep, hc, hf]
        rfl
      rw [this]
      refine ⟨Or.inr rfl, ⟨false, hf⟩, ?_, ?_⟩
      · simp [hf, BookingRun.phase, Phase.step]
      · simp [hf, BookingRun.phase, Phase.step]
    | true =>
      have : bookingStep c BookingRun.start t =
          (BookingRun.found { vehicle with available := true }, t) := by
        simp only [bookingStep, hc, hf]
        rfl
      rw [this]
      refine ⟨hid, ⟨true, hf⟩, ?_, ?_⟩
      · simp [hf, BookingRun.phase, Phase.step]
      · simp [hf, BookingRun.phase, Phase.step]
  | found w =>
    refine ⟨hrun, ⟨flag, hf⟩, ?_, ?_⟩
    · simp [bookingStep, BookingRun.phase, Phase.step]
    · show (t.findVehicle v).any _ = _
      simp [BookingRun.phase, Phase.step]
  | saved w r =>
    have hw : w._id = v := hrun
    have hset : (t.setAvailable w._id false).findVehicle v =
        some { vehicle with available := false } := by
      rw [hw, findVehicle_setAvailable_same, hf]
      rfl
    refine ⟨Or.inl rfl, ⟨false, hset⟩, ?_, ?_⟩
    · simp [bookingStep, BookingRun.phase, Phase.step]
    · show ((t.setAvailable w._id false).findVehicle v).any _ = _
      rw [hset]
      simp [BookingRun.phase, Phase.step]
  | done response =>
    refine ⟨hrun, ⟨flag, hf⟩, ?_, ?_⟩
    · show (BookingRun.done response).phase = _
      by_cases h : response.status = 201 <;> simp [BookingRun.phase, Phase.step, h]
    · show (t.findVehicle v).any _ = _
      by_cases h : response.status = 201 <;> simp [BookingRun.phase, Phase.step, h]

/-- One scheduling decision, seen on the control state. -/
theorem Pair.step_control (c1 c2 : Call) (v : Nat) (vehicle : Vehicle) (p : Pair)
    (who : Bool) (h1 : c1.req.vehicleId = v) (h2 : c2.req.vehicleId = v)
    (hs : p.store.holds v vehicle) (hf : p.first.Good v) (hg : p.second.Good v) :
    (Pair.step c1 c2 p who).store.holds v vehicle ∧ (Pair.step c1 c2 p who).first.Good v ∧
    (Pair.step c1 c2 p who).second.Good v ∧
    (Pair.step c1 c2 p who).control v = (p.control v).step who := by
  cases who with
  | false =>
    obtain ⟨a, b, c, d⟩ := bookingStep_control c1 v vehicle p.first p.store h1 hs hf
    refine ⟨b, a, hg, ?_⟩
    simp only [Pair.step, Pair.control, Control.step, Bool.false_eq_true, if_false]
    rw [c, d]
  | true =>
    obtain ⟨a, b, c, d⟩ := bookingStep_control c2 v vehicle p.second p.store h2 hs hg
    refine ⟨b, hf, a, ?_⟩
    simp only [Pair.step, Pair.control, Control.step, if_true]
    rw [c, d]

/-- A whole schedule, seen on the control state. -/
theorem foldl_step_control (c1 c2 : Call) (v : Nat) (vehicle : Vehicle)
    (h1 : c1.req.vehicleId = v) (h2 : c2.req.vehicleId = v) (σ : List Bool) (p : Pair)
    (hs : p.store.holds v vehicle) (hf : p.first.Good v) (hg : p.second.Good v) :
    (σ.foldl (Pair.step c1 c2) p).first.Good v ∧
    (σ.foldl (Pair.step c1 c2) p).second.Good v ∧
    (σ.foldl (Pair.step c1 c2) p).control v = σ.foldl Control.step (p.control v) := by
  induction σ generalizing p with
  | nil => exact ⟨hf, hg, rfl⟩
  | cons who σ ih =>
    obtain ⟨a, b, c, d⟩ := Pair.step_control c1 c2 v vehicle p who h1 h2 hs hf hg
    have := ih (Pair.step c1 c2 p who) a b c
    rw [d] at this
    exact this


/-- The control state after every interleaving of three steps each: one run is
rejected exactly in the two schedules without overlap, both are accepted in the
other eighteen. -/
theorem control_outcomes :
    ∀ σ ∈ merges 3 3,
      (σ = firstThenSecond →
        (σ.foldl Control.step ⟨Phase.start, Phase.start, true⟩).first = Phase.accepted ∧
        (σ.foldl Control.step ⟨Phase.start, Phase.start, true⟩).second = Phase.rejected) ∧
      (σ = secondThenFirst →
        (σ.foldl Control.step ⟨Phase.start, Phase.start, true⟩).first = Phase.rejected ∧
        (σ.foldl Control.step ⟨Phase.start, Phase.start, true⟩).second = Phase.accepted) ∧
      (σ ≠ firstThenSecond → σ ≠ secondThenFirst →
        (σ.foldl Control.step ⟨Phase.start, Phase.start, true⟩).first = Phase.accepted ∧
        (σ.foldl Control.step ⟨Phase.start, Phase.start, true⟩).second = Phase.accepted) := by
  decide

theorem run_of_accepted (run : BookingRun) (h : run.phase = Phase.accepted) :
    ∃ r, run = BookingRun.done r ∧ r.status = 201 := by
  cases run with
  | start => cases h
  | found w => cases h
  | saved w r => cases h
  | done r =>
    refine ⟨r, rfl, ?_⟩
    by_contra hne
    simp [BookingRun.phase, hne] at h

theorem run_of_rejected (v : Nat) (run : BookingRun) (hg : run.Good v)
    (h : run.phase = Phase.rejected) :
    run = BookingRun.done ⟨400, Body.error "Vehicle not available"⟩ := by
  cases run with
  | start => cases h
  | found w => cases h
  | saved w r => cases h
  | done r =>
    rcases hg with h201 | h400
    · simp [BookingRun.phase, h201] at h
    · rw [h400]

/-- A run that is scheduled alone is the handler `postRentals`. -/
theorem interleave_alone (c1 c2 : Call) (s : Store) :
    (interleave c1 c2 s [false, false, false]).first =
      BookingRun.done (postRentals s c1.userId c1.req c1.now).1 ∧
    (interleave c1 c2 s [false, false, false]).store =
      (postRentals s c1.userId c1.req c1.now).2 := by
  cases hv : s.findVehicle c1.req.vehicleId with
  | none =>
    simp [interleave, Pair.step, bookingStep, postRentals, hv]
  | some vehicle =>
    cases ha : vehicle.available with
    | false => simp [interleave, Pair.step, bookingStep, postRentals, hv, ha]
    | true => simp [interleave, Pair.step, bookingStep, postRentals, hv, ha]

/-- Counterexample to C12: on the seeded store accounts 7 and 8 ask for
vehicle 1 and both runs read the vehicle before either writes; both calls are
answered 201 and the ledger holds two `pending` rentals on vehicle 1. -/
theorem both_bookings_succeed :
    (seedStore.findVehicle 1).map (fun v => v.available) = some true ∧
    bothReadFirst ∈ merges 3 3 ∧
    (interleave callA callB seedStore bothReadFirst).first.phase = Phase.accepted ∧
    (interleave callA callB seedStore bothReadFirst).second.phase = Phase.accepted ∧
    (interleave callA callB seedStore bothReadFirst).store.rentals.map
        (fun r => (r._id, r.userId, r.vehicleId, r.status)) =
      [(100, 7, 1, Status.pending), (101, 8, 1, Status.pending)] := by
  decide

/-- C12 as amended: two calls that book the same available vehicle, under any
interleaving of their database calls (three steps each).  When the calls do
not overlap, the earlier one is answered 201 and the later one 400
`Vehicle not available`; in every other interleaving both are answered 201. -/
theorem two_bookings_interleaved (s : Store) (vehicle : Vehicle) (c1 c2 : Call)
    (hv : s.findVehicle c1.req.vehicleId = some vehicle) (ha : vehicle.available = true)
    (h12 : c2.req.vehicleId = c1.req.vehicleId) (σ : List Bool)
    (hσ : σ.count false = 3 ∧ σ.count true = 3) :
    ∃ r1 r2 : Response,
      (interleave c1 c2 s σ).first = BookingRun.done r1 ∧
      (interleave c1 c2 s σ).second = BookingRun.done r2 ∧
      (σ = firstThenSecond →
        r1.status = 201 ∧ r2 = ⟨400, Body.error "Vehicle not available"⟩) ∧
      (σ = secondThenFirst →
        r2.status = 201 ∧ r1 = ⟨400, Body.error "Vehicle not available"⟩) ∧
      (σ ≠ firstThenSecond → σ ≠ secondThenFirst → r1.status = 201 ∧ r2.status = 201) := by
  have hholds : s.holds c1.req.vehicleId vehicle := by
    refine ⟨true, ?_⟩
    rw [hv]
    cases vehicle
    simp only at ha
    subst ha
    rfl
  obtain ⟨g1, g2, hctl⟩ := foldl_step_control c1 c2 c1.req.vehicleId vehicle rfl h12 σ
    ⟨BookingRun.start, BookingRun.start, s⟩ hholds trivial trivial
  have h0 : (⟨BookingRun.start, BookingRun.start, s⟩ : Pair).control c1.req.vehicleId =
      ⟨Phase.start, Phase.start, true⟩ := by
    simp [Pair.control, BookingRun.phase, hv, ha]
  rw [h0] at hctl
  have hout := control_outcomes σ ((mem_merges 3 3 σ).mpr hσ)
  rw [← hctl] at hout
  obtain ⟨o1, o2, o3⟩ := hout
  by_cases e1 : σ = firstThenSecond
  · obtain ⟨p1, p2⟩ := o1 e1
    obtain ⟨r1, hr1, hs1⟩ := run_of_accepted _ p1
    have hr2 := run_of_rejected c1.req.vehicleId _ g2 p2
    refine ⟨r1, _, hr1, hr2, fun _ => ⟨hs1, rfl⟩, ?_, fun h => absurd e1 h⟩
    intro e2
    rw [e1] at e2
    exact absurd e2 (by decide)
  · by_cases e2 : σ = secondThenFirst
    · obtain ⟨p1, p2⟩ := o2 e2
      obtain ⟨r2, hr2, hs2⟩ := run_of_accepted _ p2
      have hr1 := run_of_rejected c1.req.vehicleId _ g1 p1
      exact ⟨_, r2, hr1, hr2, fun h => absurd h e1, fun _ => ⟨hs2, rfl⟩,
        fun _ h => absurd e2 h⟩
    · obtain ⟨p1, p2⟩ := o3 e1 e2
      obtain ⟨r1, hr1, hs1⟩ := run_of_accepted _ p1
      obtain ⟨r2, hr2, hs2⟩ := run_of_accepted _ p2
      exact ⟨r1, r2, hr1, hr2, fun h => absurd h e1, fun h => absurd h e2,
        fun _ _ => ⟨hs1, hs2⟩⟩

/-- Witness of the amended C12: the calls of accounts 7 and 8 for vehicle 1 on
the seeded store, under the schedule `bothReadFirst`. -/
theorem two_bookings_interleaved_witness :
    (seedStore.findVehicle callA.req.vehicleId = some tesla ∧ tesla.available = true ∧
      callB.req.vehicleId = callA.req.vehicleId ∧
      (bothReadFirst.count false = 3 ∧ bothReadFirst.count true = 3)) ∧
    ∃ r1 r2 : Response,
      (interleave callA callB seedStore bothReadFirst).first = BookingRun.done r1 ∧
      (interleave callA callB seedStore bothReadFirst).second = BookingRun.done r2 ∧
      (bothReadFirst = firstThenSecond →
        r1.status = 201 ∧ r2 = ⟨400, Body.error "Vehicle not available"⟩) ∧
      (bothReadFirst = secondThenFirst →
        r2.status = 201 ∧ r1 = ⟨400, Body.error "Vehicle not available"⟩) ∧
      (bothReadFirst ≠ firstThenSecond → bothReadFirst ≠ secondThenFirst →
        r1.status = 201 ∧ r2.status = 201) :=
  ⟨by decide,
    two_bookings_interleaved seedStore tesla callA callB (by decide) (by decide)
      (by decide) bothReadFirst (by decide)⟩

/-- The schedule without overlap evaluated on the seeded store: the call of
account 7 is answered 201, the call of account 8 is answered 400
`Vehicle not available`, and the ledger holds one rental. -/
theorem sequential_bookings_example :
    (interleave callA callB seedStore firstThenSecond).first =
      BookingRun.done ⟨201, Body.rental firstRental⟩ ∧
    (interleave callA callB seedStore firstThenSecond).second =
      BookingRun.done ⟨400, Body.error "Vehicle not available"⟩ ∧
    (interleave callA callB seedStore firstThenSecond).store = bookedStore := by
  decide

/-! ## Registration, login and the session gate -/

theorem isPrefixOf_append_self (l t : List Char) : l.isPrefixOf (l ++ t) = true := by
  induction l with
  | nil => simp [List.isPrefixOf]
  | cons c cs ih => simp [List.isPrefixOf, ih]

theorem removeFirst_append (pat t : List Char) (hpat : pat ≠ []) :
    removeFirst pat (pat ++ t) = t := by
  cases pat with
  | nil => exact absurd rfl hpat
  | cons c cs =>
    show removeFirst (c :: cs) (c :: (cs ++ t)) = t
    unfold removeFirst
    have h := isPrefixOf_append_self (c :: cs) t
    simp only [List.cons_append] at h
    rw [if_pos h]
    simp

/-- The middleware lets a request through when its header is `Bearer ` followed
by a token that verifies. -/
theorem authMiddleware_bearer (jwt : Jwt) (token : String) (userId : Nat)
    (hne : token ≠ "") (hv : jwt.verify token = some userId) :
    authMiddleware jwt (bearer token) = Gate.next userId := by
  have hstrip : String.mk (removeFirst "Bearer ".data ("Bearer " ++ token).data) = token := by
    rw [String.data_append, removeFirst_append _ _ (by decide)]
  unfold authMiddleware bearer
  simp only [Option.map_some', hstrip, hne, if_false, hv]

theorem findByEmail_append_new (db : Accounts) (u : User)
    (hnew : ∀ x ∈ db.users, x.email ≠ u.email) :
    ({ users := db.users ++ [u], nextId := db.nextId + 1 } : Accounts).findByEmail u.email
      = some u := by
  show (db.users ++ [u]).find? (fun x => x.email == u.email) = some u
  rw [find?_append_of_forall_false]
  · simp
  · intro x hx
    simpa using hnew x hx

/-- Counterexample to C16: the name is the empty string and the email is not
registered; `user.save()` fails the `required` check on `name`, the handler
answers 500 without a token and no account is stored, so the login that
follows answers 401. -/
theorem register_empty_name_fails :
    (∀ pw salt, toyBcrypt.compare pw (toyBcrypt.hash pw salt) = true) ∧
    (∀ id iat, toyJwt.verify (toyJwt.sign id iat) = some id) ∧
    noAccounts.findByEmail "ann@example.com" = none ∧
    (register toyBcrypt toyJwt noAccounts "" "ann@example.com" "secret" none 0 0).1 =
      ⟨500, AuthBody.error "User validation failed"⟩ ∧
    (register toyBcrypt toyJwt noAccounts "" "ann@example.com" "secret" none 0 0).2 =
      noAccounts ∧
    login toyBcrypt toyJwt
        (register toyBcrypt toyJwt noAccounts "" "ann@example.com" "secret" none 0 0).2
        "ann@example.com" "secret" 1 =
      ⟨401, AuthBody.error "Invalid credentials"⟩ := by
  refine ⟨?_, ?_, by decide, by decide, by decide, by decide⟩
  · intro pw salt
    simp [toyBcrypt]
  · intro id iat
    simp [toyJwt]

/-- C16 as amended: for every non-empty name, non-empty email and every
password, with the email not yet registered, and with a hash primitive that
accepts the password it hashed and a verifier that returns the payload of a
token it signed: `register` answers 201 with a token that verifies to the id of
the new account, and a login with the same email and password answers 200 with
a token that verifies to the same id; both tokens pass `authMiddleware`. -/
theorem register_then_login (bc : Bcrypt) (jwt : Jwt) (db : Accounts)
    (name email password : String) (phone : Option String) (salt : Nat) (now now' : Int)
    (hcmp : ∀ pw s, bc.compare pw (bc.hash pw s) = true)
    (hjwt : ∀ id iat, jwt.verify (jwt.sign id iat) = some id)
    (hnew : db.findByEmail email = none)
    (hname : name ≠ "") (hemail : email ≠ "") :
    ∃ (token token' : String) (user : User),
      (register bc jwt db name email password phone salt now).1 =
        ⟨201, AuthBody.session token ⟨user._id, name, email⟩⟩ ∧
      (register bc jwt db name email password phone salt now).2.users = db.users ++ [user] ∧
      user._id = db.nextId ∧ user.name = name ∧ user.email = email ∧
      jwt.verify token = some user._id ∧
      authMiddleware jwt (bearer token) = Gate.next user._id ∧
      login bc jwt (register bc jwt db name email password phone salt now).2 email
          password now' =
        ⟨200, AuthBody.session token' ⟨user._id, name, email⟩⟩ ∧
      jwt.verify token' = some user._id ∧
      authMiddleware jwt (bearer token') = Gate.next user._id := by
  have key : ∀ u : User, u._id = db.nextId → u.name = name → u.email = email →
      u.password = bc.hash password salt → u.phone = phone → u.createdAt = now →
      register bc jwt db name email password phone salt now =
        (⟨201, AuthBody.session (jwt.sign db.nextId now) ⟨db.nextId, name, email⟩⟩,
          { users := db.users ++ [u], nextId := db.nextId + 1 }) ∧
      login bc jwt { users := db.users ++ [u], nextId := db.nextId + 1 } email password
          now' =
        ⟨200, AuthBody.session (jwt.sign db.nextId now') ⟨db.nextId, name, email⟩⟩ := by
    intro u h1 h2 h3 h4 h5 h6
    have hu : u = ⟨db.nextId, name, email, bc.hash password salt, phone, now⟩ := by
      cases u
      simp only at h1 h2 h3 h4 h5 h6
      subst h1 h2 h3 h4 h5 h6
      rfl
    have hvalid : u.valid = true := by
      simp [User.valid, h2, h3, h4, hname, hemail, bc.hash_nonempty]
    have hnew' : ∀ x ∈ db.users, x.email ≠ u.email := by
      intro x hx
      have := List.find?_eq_none.mp hnew x hx
      rw [h3]
      simpa using this
    have hfind := findByEmail_append_new db u hnew'
    rw [h3] at hfind
    constructor
    · unfold register
      rw [hu] at hvalid
      simp only [hnew, hvalid, if_true, hu]
    · unfold login
      simp only [hfind, h4, hcmp, Bool.not_true, Bool.false_eq_true, if_false, h1, h2, h3]
  obtain ⟨hreg, hlog⟩ := key ⟨db.nextId, name, email, bc.hash password salt, phone, now⟩
    rfl rfl rfl rfl rfl rfl
  rw [hreg]
  exact ⟨jwt.sign db.nextId now, jwt.sign db.nextId now', _, rfl, rfl, rfl, rfl, rfl,
    hjwt _ _, authMiddleware_bearer jwt _ _ (jwt.sign_nonempty _ _) (hjwt _ _),
    hlog, hjwt _ _, authMiddleware_bearer jwt _ _ (jwt.sign_nonempty _ _) (hjwt _ _)⟩


theorem toyBcrypt_accepts (pw : String) (salt : Nat) :
    toyBcrypt.compare pw (toyBcrypt.hash pw salt) = true := by
  simp [toyBcrypt]

theorem toyJwt_verifies (id : Nat) (iat : Int) :
    toyJwt.verify (toyJwt.sign id iat) = some id := by
  simp [toyJwt]

/-- Witness of the amended C16: Ann registers on an empty user collection and
logs in, with the stand-ins for `bcryptjs` and `jsonwebtoken`. -/
theorem register_then_login_witness :
    ((∀ pw s, toyBcrypt.compare pw (toyBcrypt.hash pw s) = true) ∧
      (∀ id iat, toyJwt.verify (toyJwt.sign id iat) = some id) ∧
      noAccounts.findByEmail "ann@example.com" = none ∧
      "Ann" ≠ "" ∧ "ann@example.com" ≠ "") ∧
    ∃ (token token' : String) (user : User),
      (register toyBcrypt toyJwt noAccounts "Ann" "ann@example.com" "secret" none 0 0).1 =
        ⟨201, AuthBody.session token ⟨user._id, "Ann", "ann@example.com"⟩⟩ ∧
      (register toyBcrypt toyJwt noAccounts "Ann" "ann@example.com" "secret" none 0 0).2.users
        = noAccounts.users ++ [user] ∧
      user._id = noAccounts.nextId ∧ user.name = "Ann" ∧ user.email = "ann@example.com" ∧
      toyJwt.verify token = some user._id ∧
      authMiddleware toyJwt (bearer token) = Gate.next user._id ∧
      login toyBcrypt toyJwt
          (register toyBcrypt toyJwt noAccounts "Ann" "ann@example.com" "secret" none 0 0).2
          "ann@example.com" "secret" 1 =
        ⟨200, AuthBody.session token' ⟨user._id, "Ann", "ann@example.com"⟩⟩ ∧
      toyJwt.verify token' = some user._id ∧
      authMiddleware toyJwt (bearer token') = Gate.next user._id :=
  ⟨⟨toyBcrypt_accepts, toyJwt_verifies, by decide, by decide, by decide⟩,
    register_then_login toyBcrypt toyJwt noAccounts "Ann" "ann@example.com" "secret" none
      0 0 1 toyBcrypt_accepts toyJwt_verifies (by decide) (by decide) (by decide)⟩

/-- The other answers of the auth routes evaluated: a second registration of
the same email is answered 400, a login with a wrong password or an unknown
email 401, and a request without header or with a token that does not verify
is stopped by the middleware with 401. -/
theorem auth_examples :
    (register toyBcrypt toyJwt
        (register toyBcrypt toyJwt noAccounts "Ann" "ann@example.com" "secret" none 0 0).2
        "Ann B" "ann@example.com" "other" none 0 1).1 =
      ⟨400, AuthBody.error "Email already registered"⟩ ∧
    login toyBcrypt toyJwt
        (register toyBcrypt toyJwt noAccounts "Ann" "ann@example.com" "secret" none 0 0).2
        "ann@example.com" "wrong" 1 = ⟨401, AuthBody.error "Invalid credentials"⟩ ∧
    login toyBcrypt toyJwt noAccounts "ann@example.com" "secret" 1 =
      ⟨401, AuthBody.error "Invalid credentials"⟩ ∧
    authMiddleware toyJwt none =
      Gate.reject ⟨401, AuthBody.error "Authentication required"⟩ ∧
    authMiddleware toyJwt (bearer "") =
      Gate.reject ⟨401, AuthBody.error "Authentication required"⟩ ∧
    authMiddleware toyJwt (bearer "forged") =
      Gate.reject ⟨401, AuthBody.error "Invalid token"⟩ := by
  decide

end DriveNow
